import Mathlib

/-!
Verification of the mail-aggregation service core against its specification.

The definitions below are a shallow embedding of the Python source:

* `services/db_writer.py`      — the Writer Daemon (`run_db_writer`, `_flush_buffer`);
* `services/tasks/utils.py`    — task status writes, `RedisSemaphore`, `user_concurrency_guard`;
* `services/tasks/worker.py`   — the Celery task entry points;
* `services/oauth_service.py`  — submission dedup and batch cancellation;
* `services/base/task_manager.py` — `BaseTaskManager`;
* `services/mail_sync.py`      — pagination loops and `save_mails_to_db`;
* `services/mail_service.py`   — `batch_download_content` queue pushes;
* `auth/msal_client.py` plus the spec's section 4.3 for the token manager.

SQLite transactions are modelled by deferring all row application to the
commit point: an exception anywhere between `BEGIN IMMEDIATE` and `commit`
leaves the store unchanged (the connection is closed without commit, which
rolls the transaction back).  Redis lists are modelled as Lean lists whose
head is the LPUSH end; RPOP removes the last element, so popping yields the
list from right to left.
-/

namespace ServerTest

/-- A SQLite cell value appearing in a queued row. -/
inductive Val
  | s (v : String)
  | i (v : Int)
  | null
deriving DecidableEq

/-- A row as carried in the queue protocol: the `data` object of a
`{table, data}` payload.  Python dicts preserve insertion order, so an
association list is a faithful image; key lookup takes the first match. -/
abbrev Row := List (String × Val)

/-- An item popped from the write-queue.  `bad` stands for an item whose
JSON fails to parse; `good table data` for a parsed `{table, data}`
payload (the daemon additionally requires both fields to be truthy). -/
inductive RawItem
  | bad
  | good (table : String) (data : Row)
deriving DecidableEq

/-- The parse step of `_flush_buffer` (db_writer.py lines 75-88): JSON
failures are discarded, as are payloads whose `table` or `data` field is
missing or falsy (empty string / empty object). -/
def RawItem.parse : RawItem → Option (String × Row)
  | .bad => none
  | .good t d => if t = "" ∨ d = [] then none else some (t, d)

/-- Appends a row to its table's bucket, creating the bucket at the end on
first sight of the table.  This mirrors the Python `grouped_data` dict:
first-encounter order of tables, push order of rows within a table. -/
def addRow (t : String) (r : Row) : List (String × List Row) → List (String × List Row)
  | [] => [(t, [r])]
  | (t', rs) :: rest =>
      if t' = t then (t', rs ++ [r]) :: rest else (t', rs) :: addRow t r rest

/-- Grouping of the popped batch by table (db_writer.py lines 75-88). -/
def groupByTable (items : List RawItem) : List (String × List Row) :=
  items.foldl
    (fun acc it =>
      match it.parse with
      | none => acc
      | some (t, r) => addRow t r acc)
    []

/-- `INSERT OR REPLACE` versus `INSERT OR IGNORE`. -/
inductive SqlAction
  | ignore
  | replace
deriving DecidableEq

/-- Choice of bulk action (db_writer.py line 105):
`REPLACE` for `mail_body`, `IGNORE` for every other table. -/
def actionFor (table : String) : SqlAction :=
  if table = "mail_body" then .replace else .ignore

/-- One bulk `executemany` statement of a flush. -/
structure BulkStmt where
  table : String
  action : SqlAction
  rows : List Row
deriving DecidableEq

/-- Effectful map over the `Option` monad: the first failure aborts. -/
def mapMO {α β : Type} (f : α → Option β) : List α → Option (List β)
  | [] => some []
  | a :: l =>
      match f a with
      | none => none
      | some b =>
          match mapMO f l with
          | none => none
          | some bs => some (b :: bs)

/-- Projection of a row onto the shared column list (db_writer.py line 109,
`tuple(row[k] for k in keys)`): indexing a dict with a missing key raises
`KeyError`, hence `none`. -/
def projectRow (keys : List String) (r : Row) : Option Row :=
  mapMO (fun k => (r.lookup k).map (fun v => (k, v))) keys

/-- Builds the bulk statement of one table (db_writer.py lines 99-110): the
column list is taken from the first row of the group, and every row is
projected onto it; a missing key aborts the whole flush. -/
def buildStmt (t : String) (rows : List Row) : Option BulkStmt :=
  match rows with
  | [] => none
  | r0 :: _ =>
      (mapMO (projectRow (r0.map Prod.fst)) rows).map
        (fun prs => { table := t, action := actionFor t, rows := prs })

/-- All bulk statements of a flush, in table first-encounter order.
(`groupByTable` never produces an empty bucket, so the `if not rows:
continue` guard of the source is vacuous here.) -/
def buildStmts (grouped : List (String × List Row)) : Option (List BulkStmt) :=
  mapMO (fun p => buildStmt p.1 p.2) grouped

/-- Uniqueness key of `mail_message`.
Modelled from the spec: `schema.sql` is not under src/; section 3 of the
spec states the `mail_message` uniqueness constraint `(group_id, msg_uid)`. -/
def msgKey (r : Row) : Option Val × Option Val :=
  (r.lookup "group_id", r.lookup "msg_uid")

/-- Primary key of `mail_body`.
Modelled from the spec: `schema.sql` is not under src/; section 3 of the
spec states `mail_body` is keyed by `message_id`. -/
def bodyKey (r : Row) : Option Val :=
  r.lookup "message_id"

/-- `INSERT OR IGNORE` against a table whose uniqueness key is `key`:
a row whose key is already present is dropped, otherwise appended. -/
def upsertIgnore {κ : Type} [DecidableEq κ] (key : Row → κ) (t : List Row) (r : Row) : List Row :=
  if t.any (fun x => decide (key x = key r)) then t else t ++ [r]

/-- `INSERT OR REPLACE` against a table keyed by `key`: a conflicting row
is overwritten in place, otherwise the new row is appended. -/
def upsertReplace {κ : Type} [DecidableEq κ] (key : Row → κ) (t : List Row) (r : Row) : List Row :=
  if t.any (fun x => decide (key x = key r)) then
    t.map (fun x => if key x = key r then r else x)
  else t ++ [r]

/-- Bulk application of `INSERT OR IGNORE` rows. -/
def applyIgnore {κ : Type} [DecidableEq κ] (key : Row → κ) (t : List Row) (rows : List Row) : List Row :=
  rows.foldl (upsertIgnore key) t

/-- Bulk application of `INSERT OR REPLACE` rows. -/
def applyReplace {κ : Type} [DecidableEq κ] (key : Row → κ) (t : List Row) (rows : List Row) : List Row :=
  rows.foldl (upsertReplace key) t

/-- The relational store as touched by the Writer Daemon: the two tables
whose constraints the spec fixes, plus an append-only image of rows sent
to any other table (their constraints are not specified). -/
structure MailDB where
  mail_message : List Row
  mail_body : List Row
  other : List (String × Row)
deriving DecidableEq

/-- Effect of one bulk statement on the store. -/
def applyStmt (db : MailDB) (st : BulkStmt) : MailDB :=
  if st.table = "mail_body" then
    { db with mail_body := applyReplace bodyKey db.mail_body st.rows }
  else if st.table = "mail_message" then
    { db with mail_message := applyIgnore msgKey db.mail_message st.rows }
  else
    { db with other := db.other ++ st.rows.map (fun r => (st.table, r)) }

/-- The broker state seen by the Writer Daemon: the write-queue and the
dead-letter list.  List head = LPUSH end; RPOP removes the last element. -/
structure RedisState where
  writeQueue : List RawItem
  writeFailed : List RawItem
deriving DecidableEq

/-- Outcome of one `_flush_buffer` run. -/
inductive FlushOutcome
  | noop
  | committed
  | requeued
deriving DecidableEq

/-- `_flush_buffer` (db_writer.py lines 63-128).  `commitOk` is the oracle
for the transaction succeeding (db handle acquisition, `executemany` on
well-formed rows, and `commit`); a `KeyError` while projecting rows fails
the transaction regardless.  On any failure no row is committed (the
transaction never commits) and every popped raw item is LPUSHed back, in
pop order, onto the write-queue (lines 119-128). -/
def flushBuffer (raw : List RawItem) (commitOk : Bool) (db : MailDB) (rs : RedisState) :
    MailDB × RedisState × FlushOutcome :=
  if raw = [] then (db, rs, .noop)
  else
    let grouped := groupByTable raw
    if grouped = [] then (db, rs, .noop)
    else
      match buildStmts grouped with
      | some stmts =>
          if commitOk then (stmts.foldl applyStmt db, rs, .committed)
          else (db, { rs with writeQueue := raw.reverse ++ rs.writeQueue }, .requeued)
      | none => (db, { rs with writeQueue := raw.reverse ++ rs.writeQueue }, .requeued)

/-- The store a successful flush commits: all well-formed rows of the
batch, grouped by table, one bulk statement per table. -/
def commitResult (raw : List RawItem) (db : MailDB) : MailDB :=
  match buildStmts (groupByTable raw) with
  | some stmts => stmts.foldl applyStmt db
  | none => db

/-- Loop state of `run_db_writer` (db_writer.py lines 30-60). -/
structure WriterLoopState where
  pending : List RawItem
  lastFlush : ℚ
deriving DecidableEq

/-- The buffer after the pop step of one daemon iteration (lines 40-46):
a popped item is appended to the buffer. -/
def writerPending (popped : Option RawItem) (s : WriterLoopState) : List RawItem :=
  match popped with
  | some it => s.pending ++ [it]
  | none => s.pending

/-- One iteration of `run_db_writer` (lines 36-56) after the pop: the
flush triggers when the buffer reached `BATCH_SIZE = 500` or the buffer is
non-empty and `FLUSH_INTERVAL = 2` seconds have elapsed since the last
flush.  Returns the new loop state, store, broker state, and whether a
flush ran.  `now` is the clock read of line 49. -/
def writerStep (popped : Option RawItem) (now : ℚ) (commitOk : Bool)
    (s : WriterLoopState) (db : MailDB) (rs : RedisState) :
    WriterLoopState × MailDB × RedisState × Bool :=
  let pending := writerPending popped s
  if 500 ≤ pending.length ∨ (0 < pending.length ∧ 2 ≤ now - s.lastFlush) then
    let (db', rs', _) := flushBuffer pending commitOk db rs
    ({ pending := [], lastFlush := now }, db', rs', true)
  else
    ({ pending := pending, lastFlush := s.lastFlush }, db, rs, false)

/-! ### Task status writes and the per-user semaphore
(`services/tasks/utils.py`, `services/tasks/worker.py`,
`services/oauth_service.py`) -/

/-- The parameters of `update_task_status` (tasks/utils.py line 15):
`user_id, group_id, task_type, status, message, ttl`. -/
def updateTaskStatusParams : List String :=
  ["user_id", "group_id", "task_type", "status", "message", "ttl"]

/-- Python call semantics for keyword arguments: a call whose keyword
argument names are not all among the function's parameters raises
`TypeError` before the body runs.  (All the modelled call sites pass at
most five positional arguments, within the six parameters.) -/
def acceptsKwargs (params : List String) (kwargs : List String) : Bool :=
  kwargs.all (fun k => params.contains k)

/-- Whether a given `update_task_status(...)` call site, identified by its
keyword argument names, runs (`true`) or raises `TypeError` (`false`). -/
def updateTaskStatusCallOk (kwargs : List String) : Bool :=
  acceptsKwargs updateTaskStatusParams kwargs

/-- Keyword arguments of the initial status write of `sync_group_task`
(worker.py lines 55-58): `ttl=3600, task_id=self.request.id`. -/
def syncGroupInitialKwargs : List String := ["ttl", "task_id"]

/-- Keyword arguments of the initial status write of `login_group_task`
(worker.py lines 97-100). -/
def loginGroupInitialKwargs : List String := ["ttl", "task_id"]

/-- Keyword arguments of the initial status write of `sync_folders_task`
(worker.py lines 212-215). -/
def syncFoldersInitialKwargs : List String := ["ttl", "task_id"]

/-- Keyword arguments of the initial status write of `batch_download_task`
(worker.py lines 237-242). -/
def batchDownloadInitialKwargs : List String := ["ttl", "task_id"]

/-- Keyword arguments of the cancellation status write in
`OAuthService.cancel_all_tasks_by_type` (oauth_service.py lines 84-92). -/
def cancelStatusKwargs : List String := ["ttl", "task_id"]

/-- The per-user concurrency cap (tasks/utils.py line 83):
`30 if role == "admin" else 10`. -/
def capForRole (role : String) : Nat :=
  if role = "admin" then 30 else 10

/-- State of one user's semaphore: the atomic broker counter plus the
ghost count of tasks currently holding a slot. -/
structure SemState where
  count : Int
  holders : Nat
deriving DecidableEq

/-- `RedisSemaphore.acquire` (tasks/utils.py lines 86-91): `INCR`; if the
counter exceeds the limit, `DECR` and fail, else hold the slot.  The
incr/decr pair of a failed acquire is collapsed into one atomic step of
this sequential model. -/
def semAcquire (limit : Nat) (s : SemState) : SemState × Bool :=
  if limit < s.count + 1 then (s, false)
  else ({ count := s.count + 1, holders := s.holders + 1 }, true)

/-- `RedisSemaphore.release` (tasks/utils.py lines 93-94): `DECR`. -/
def semRelease (s : SemState) : SemState :=
  { count := s.count - 1, holders := s.holders - 1 }

/-- Semaphore events of one user's task population. -/
inductive SemOp
  | acq
  | rel
deriving DecidableEq

/-- Effect of one semaphore event. -/
def semStep (limit : Nat) (s : SemState) : SemOp → SemState
  | .acq => (semAcquire limit s).1
  | .rel => semRelease s

/-- Run of a sequence of semaphore events. -/
def semRun (limit : Nat) (s : SemState) (ops : List SemOp) : SemState :=
  ops.foldl (semStep limit) s

/-- A trace is valid when every `release` is executed by a task holding a
slot — which is how the code releases: only in the `finally` of
`user_concurrency_guard` after a successful `acquire` (utils.py 96-104). -/
def ValidTrace (limit : Nat) : SemState → List SemOp → Prop
  | _, [] => True
  | s, op :: ops =>
      (op = SemOp.rel → 0 < s.holders) ∧ ValidTrace limit (semStep limit s op) ops

/-- Result of entering `user_concurrency_guard` (tasks/utils.py 96-100):
the slot is held, or a Celery `retry` with a 5 second countdown is raised.
No task status key is written by the guard in either case. -/
inductive GuardResult
  | acquired
  | retryBackoff (countdown : Nat)
deriving DecidableEq

/-- `user_concurrency_guard` entry: acquire or raise `retry(countdown=5)`. -/
def userConcurrencyGuard (limit : Nat) (s : SemState) : SemState × GuardResult :=
  match semAcquire limit s with
  | (s', true) => (s', .acquired)
  | (s', false) => (s', .retryBackoff 5)

/-- Observable events of a Celery worker task run. -/
inductive TaskEvent
  | statusWrite (kwargs : List String)
  | typeError
  | guardAcquired
  | retryBackoff (countdown : Nat)
  | taskWork
deriving DecidableEq

/-- The event trace of `sync_group_task` (worker.py lines 51-84): the very
first statement is the status write with `ttl` and `task_id` keywords;
only if that call runs does the task enter `user_concurrency_guard` and,
with a slot, its body.  `acquireOk` is the semaphore oracle. -/
def syncGroupTaskTrace (acquireOk : Bool) : List TaskEvent :=
  if updateTaskStatusCallOk syncGroupInitialKwargs then
    TaskEvent.statusWrite syncGroupInitialKwargs ::
      (if acquireOk then [TaskEvent.guardAcquired, TaskEvent.taskWork]
       else [TaskEvent.retryBackoff 5])
  else [TaskEvent.typeError]

/-- The event trace of `login_group_task` (worker.py lines 89-171). -/
def loginGroupTaskTrace (acquireOk : Bool) : List TaskEvent :=
  if updateTaskStatusCallOk loginGroupInitialKwargs then
    TaskEvent.statusWrite loginGroupInitialKwargs ::
      (if acquireOk then [TaskEvent.guardAcquired, TaskEvent.taskWork]
       else [TaskEvent.retryBackoff 5])
  else [TaskEvent.typeError]

/-- The event trace of `sync_folders_task` (worker.py lines 208-231). -/
def syncFoldersTaskTrace (acquireOk : Bool) : List TaskEvent :=
  if updateTaskStatusCallOk syncFoldersInitialKwargs then
    TaskEvent.statusWrite syncFoldersInitialKwargs ::
      (if acquireOk then [TaskEvent.guardAcquired, TaskEvent.taskWork]
       else [TaskEvent.retryBackoff 5])
  else [TaskEvent.typeError]

/-- The event trace of `batch_download_task` (worker.py lines 234-270); it
uses no concurrency guard, the body follows the initial status write. -/
def batchDownloadTaskTrace : List TaskEvent :=
  if updateTaskStatusCallOk batchDownloadInitialKwargs then
    [TaskEvent.statusWrite batchDownloadInitialKwargs, TaskEvent.taskWork]
  else [TaskEvent.typeError]

/-- Events of the per-task body of `cancel_all_tasks_by_type`
(oauth_service.py 78-95) for an active task: the Celery revoke happens,
then the status write with `task_id` is attempted inside the same `try`;
its `TypeError` is caught by the surrounding handler, and
`cancelled_count` is not incremented. -/
inductive CancelEvent
  | revoke
  | statusWrite (kwargs : List String)
  | caughtTypeError
deriving DecidableEq

/-- One iteration of the cancellation loop over an active task: the pair
of its events and the increment added to `cancelled_count`. -/
def cancelOneTask : List CancelEvent × Nat :=
  if updateTaskStatusCallOk cancelStatusKwargs then
    ([CancelEvent.revoke, CancelEvent.statusWrite cancelStatusKwargs], 1)
  else ([CancelEvent.revoke, CancelEvent.caughtTypeError], 0)

/-! ### The thread-pool task manager (`services/base/task_manager.py`)

States are maps `task_id -> record` and `task_key -> task_id`; the ghost
`phase` field records how far `_execute_with_wrapper` has progressed for a
task (its initial `running` write happens exactly once, before the body,
and the terminal write plus key cleanup exactly once, after it). -/

/-- Progress of `_execute_with_wrapper` for one task. -/
inductive Phase
  | notStarted
  | started
  | finished
deriving DecidableEq

/-- One entry of `BaseTaskManager._tasks`. -/
structure TaskRec where
  key : String
  ttype : String
  status : String
  phase : Phase
deriving DecidableEq

/-- `BaseTaskManager` state: `_tasks`, `_task_keys`, the ids handed to the
thread-pool executor, and the fresh-id supply (the source draws UUID4s;
a counter models their freshness). -/
structure MgrState where
  tasks : Nat → Option TaskRec
  taskKeys : String → Option Nat
  scheduled : List Nat
  next : Nat

/-- A recorded state counting as active (task_manager.py line 97). -/
def isActive (st : String) : Bool :=
  st == "pending" || st == "running"

/-- The record of a freshly submitted task (task_manager.py lines
105-111). -/
def newRec (key ttype : String) : TaskRec :=
  { key := key, ttype := ttype, status := "pending", phase := .notStarted }

/-- The record after the wrapper's initial `running` write. -/
def startedRec (t : TaskRec) : TaskRec :=
  { t with status := "running", phase := .started }

/-- The record after the wrapper's terminal write (task_manager.py lines
142-151): on success a still `running` task becomes `completed`, on an
exception it becomes `failed`. -/
def finishedRec (t : TaskRec) (ok : Bool) : TaskRec :=
  { t with
    status := if ok then (if t.status = "running" then "completed" else t.status) else "failed",
    phase := .finished }

/-- The non-dedup path of `submit_task` (task_manager.py lines 101-127):
fresh id, `pending` record, key remapped, work handed to the executor. -/
def freshSubmit (s : MgrState) (key ttype : String) : MgrState × Nat :=
  ({ tasks := fun n => if n = s.next then some (newRec key ttype) else s.tasks n,
     taskKeys := fun k => if k = key then some s.next else s.taskKeys k,
     scheduled := s.scheduled ++ [s.next],
     next := s.next + 1 }, s.next)

/-- `BaseTaskManager.submit_task` (lines 75-127): if the key maps to a
task recorded `pending` or `running`, return its id and change nothing;
otherwise create and schedule a fresh task. -/
def submitTask (s : MgrState) (key ttype : String) : MgrState × Nat :=
  match s.taskKeys key with
  | some id =>
      match s.tasks id with
      | some t => if isActive t.status then (s, id) else freshSubmit s key ttype
      | none => freshSubmit s key ttype
  | none => freshSubmit s key ttype

/-- Wrapper entry (task_manager.py line 139): the task's one
`update_task_status(task_id, "running")`.  The `notStarted` guard is the
program counter: the wrapper runs once per submitted task. -/
def startTask (s : MgrState) (id : Nat) : MgrState :=
  match s.tasks id with
  | some t =>
      if t.phase = .notStarted then
        { s with tasks := fun n =>
            if n = id then some (startedRec t) else s.tasks n }
      else s
  | none => s

/-- Wrapper exit (task_manager.py lines 142-156): on success a still
`running` task becomes `completed`; on an exception it becomes `failed`;
the `finally` clause removes the key mapping if it still points to this
task. -/
def finishTask (s : MgrState) (id : Nat) (ok : Bool) : MgrState :=
  match s.tasks id with
  | some t =>
      if t.phase = .started then
        { s with
          tasks := fun n =>
            if n = id then some (finishedRec t ok) else s.tasks n,
          taskKeys := fun k =>
            if k = t.key ∧ s.taskKeys t.key = some id then none else s.taskKeys k }
      else s
  | none => s

/-- `BaseTaskManager.cancel_task` (lines 204-217): an active mapped task
is recorded `cancelled`. -/
def cancelTask (s : MgrState) (key : String) : MgrState × Bool :=
  match s.taskKeys key with
  | some id =>
      match s.tasks id with
      | some t =>
          if isActive t.status then
            ({ s with tasks := fun n =>
                 if n = id then some { t with status := "cancelled" } else s.tasks n }, true)
          else (s, false)
      | none => (s, false)
  | none => (s, false)

/-- Manager events without cancellation.  (With `cancelTask` interleaved
the per-key uniqueness below is not an invariant: a `pending` task can be
cancelled and its key resubmitted before the executor runs the first
task's wrapper, whose unconditional `running` write then revives it.) -/
inductive MgrOp
  | submit (key ttype : String)
  | start (id : Nat)
  | finish (id : Nat) (ok : Bool)

/-- Effect of one manager event. -/
def mgrStep (s : MgrState) : MgrOp → MgrState
  | .submit k tt => (submitTask s k tt).1
  | .start id => startTask s id
  | .finish id ok => finishTask s id ok

/-- A run of manager events. -/
def mgrRun (s : MgrState) (ops : List MgrOp) : MgrState :=
  ops.foldl mgrStep s

/-- The freshly constructed manager. -/
def initMgr : MgrState :=
  { tasks := fun _ => none, taskKeys := fun _ => none, scheduled := [], next := 0 }

/-! ### The Celery submission path (`services/oauth_service.py`) -/

/-- `RedisKeys.TASK_STATUS_TEMPLATE` (celery_app.py line 33), the key that
`update_task_status` writes. -/
def statusKeyTemplate (userId taskType groupId : String) : String :=
  "sys:status:user:" ++ userId ++ ":type:" ++ taskType ++ ":group:" ++ groupId

/-- `make_status_key` (tasks/utils.py lines 106-107), the key that
`get_task_status` reads. -/
def makeStatusKey (userId groupId taskType : String) : String :=
  "task:" ++ userId ++ ":" ++ groupId ++ ":" ++ taskType

/-- Broker and Celery state seen by `OAuthService.submit_sync`: the status
key/value channel (values reduced to the recorded `status` field) and the
list of scheduled `sync_group_task` invocations. -/
structure SyncSubmitState where
  kv : String → Option String
  celeryQueue : List (String × String)

/-- A successful `update_task_status(user, group, type, status, ...)` call
(tasks/utils.py lines 15-32): `SETEX` of the templated status key. -/
def updateTaskStatusWrite (st : SyncSubmitState) (userId groupId taskType status : String) :
    SyncSubmitState :=
  { st with kv := fun k =>
      if k = statusKeyTemplate userId taskType groupId then some status else st.kv k }

/-- `get_task_status` (tasks/utils.py lines 109-118): `GET` of the
`make_status_key` key. -/
def getTaskStatus (st : SyncSubmitState) (userId groupId taskType : String) : Option String :=
  st.kv (makeStatusKey userId groupId taskType)

/-- The submission path of `submit_sync` after the dedup check
(oauth_service.py lines 51-55): record `PENDING`, schedule the task. -/
def submitSyncProceed (st : SyncSubmitState) (groupId userId : String) :
    SyncSubmitState × Bool :=
  let st1 := updateTaskStatusWrite st userId groupId "sync" "PENDING"
  ({ st1 with celeryQueue := st1.celeryQueue ++ [(groupId, userId)] }, true)

/-- `OAuthService.submit_sync` (oauth_service.py lines 42-55): dedup via
`get_task_status`, then record `PENDING` and schedule. -/
def submitSync (st : SyncSubmitState) (groupId userId : String) : SyncSubmitState × Bool :=
  match getTaskStatus st userId groupId "sync" with
  | some status =>
      if status = "PENDING" ∨ status = "RUNNING" then (st, true)
      else submitSyncProceed st groupId userId
  | none => submitSyncProceed st groupId userId

/-- The broker state before any submission. -/
def emptySubmitState : SyncSubmitState :=
  { kv := fun _ => none, celeryQueue := [] }

/-! ### Pagination (`services/mail_sync.py`, `auth/msal_client.py`) -/

/-- A provider message payload; its content is opaque to the pagination
and persistence control flow modelled here. -/
abbrev Mail := Nat

/-- The request shape of one provider list call, as assembled by
`MSALClient.list_messages` and `MSALClient.get_messages_delta`:
`topParam` is the `$top` query parameter actually sent, if any. -/
structure ListCall where
  folder : Option String
  topParam : Option Nat
  skipToken : Option String
deriving DecidableEq

/-- One page of a provider response. -/
structure PageResponse where
  value : List Mail
  nextLink : Option String
  deltaLink : Option String
deriving DecidableEq

/-- `MSALClient.list_messages` (msal_client.py lines 323-368): with a
`skip_token` the endpoint is `me/messages?$skipToken=...` and `params` is
empty — in particular no `$top` is sent; without one, the folder endpoint
with `$top = top`. -/
def listMessagesCall (folderId : Option String) (top : Nat) (tok : Option String) : ListCall :=
  match tok with
  | some t => { folder := none, topParam := none, skipToken := some t }
  | none => { folder := folderId, topParam := some top, skipToken := none }

/-- `MSALClient.get_messages_delta` (msal_client.py lines 390-410): a
stored `delta_link` is followed as a full URL, otherwise the folder delta
endpoint is called; neither request carries a `$top` parameter. -/
def getMessagesDeltaCall (deltaLink : Option String) (folderId : Option String) : ListCall :=
  match deltaLink with
  | some _ => { folder := none, topParam := none, skipToken := none }
  | none => { folder := folderId, topParam := none, skipToken := none }

/-- The marker matched by the regex `\$skiptoken=([^&]+)`. -/
def skiptokenMarker : List Char := "$skiptoken=".toList

/-- `re.search(r"\$skiptoken=([^&]+)", link)` followed by `group(1)`
(mail_sync.py lines 383-384, 485-486, 596-597): scan for the first
position where the marker matches and is followed by at least one
non-`&` character; capture up to the next `&`. -/
def findSkiptoken : List Char → Option String
  | [] => none
  | c :: rest =>
      if skiptokenMarker.isPrefixOf (c :: rest) then
        let tok := ((c :: rest).drop skiptokenMarker.length).takeWhile (fun ch => ch ≠ '&')
        if tok.isEmpty then findSkiptoken rest else some (String.mk tok)
      else findSkiptoken rest

/-- The `skip_token` pagination loop shared by `_sync_folder_incremental`
(mail_sync.py lines 361-388) and `_sync_folder_full` (lines 575-601): at
most `fuel` iterations; each makes one list call; an empty page or a
response without `nextLink` stops; otherwise the next token is the regex
extract of `nextLink`.  Returns the fetched mails and the calls made. -/
def paginate (provider : ListCall → PageResponse) (mkCall : Option String → ListCall) :
    Nat → Option String → List Mail × List ListCall
  | 0, _ => ([], [])
  | fuel + 1, tok =>
      let call := mkCall tok
      let resp := provider call
      if resp.value.isEmpty then ([], [call])
      else
        match resp.nextLink with
        | none => (resp.value, [call])
        | some link =>
            let rest := paginate provider mkCall fuel (findSkiptoken link.toList)
            (resp.value ++ rest.1, call :: rest.2)

/-- The loop of `_sync_folder_recent` (mail_sync.py lines 463-490), which
additionally stops once `maxMails` mails have accumulated. -/
def paginateCapped (provider : ListCall → PageResponse) (mkCall : Option String → ListCall)
    (maxMails : Nat) : Nat → Nat → Option String → List Mail × List ListCall
  | 0, _, _ => ([], [])
  | fuel + 1, accLen, tok =>
      if maxMails ≤ accLen then ([], [])
      else
        let call := mkCall tok
        let resp := provider call
        if resp.value.isEmpty then ([], [call])
        else
          match resp.nextLink with
          | none => (resp.value, [call])
          | some link =>
              let rest := paginateCapped provider mkCall maxMails fuel
                (accLen + resp.value.length) (findSkiptoken link.toList)
              (resp.value ++ rest.1, call :: rest.2)

/-- Per-folder pagination of `_sync_folder_incremental` (mail_sync.py
lines 345-391): `top=50`, at most 20 batches. -/
def syncFolderIncrementalRun (provider : ListCall → PageResponse) (folderId : String) :
    List Mail × List ListCall :=
  paginate provider (listMessagesCall (some folderId) 50) 20 none

/-- Per-folder pagination of `_sync_folder_recent` (mail_sync.py lines
446-497): `top=50`, at most 20 batches, at most 500 mails. -/
def syncFolderRecentRun (provider : ListCall → PageResponse) (folderId : String) :
    List Mail × List ListCall :=
  paginateCapped provider (listMessagesCall (some folderId) 50) 500 20 0 none

/-- Per-folder pagination of `_sync_folder_full` (mail_sync.py lines
557-618): `top=50`, `max_batches = 100`.  The periodic
`save_mails_to_db` call at 200 accumulated rows does not enter the loop
condition (only `batch_count` does) so it is not part of this model. -/
def syncFolderFullRun (provider : ListCall → PageResponse) (folderId : String)
    (skipToken : Option String) : List Mail × List ListCall :=
  paginate provider (listMessagesCall (some folderId) 50) 100 skipToken

/-- The `nextLink` chain of `sync_with_delta` (mail_sync.py lines
256-262): while the response holds `@odata.nextLink` and `batch_count <
50`, the link is followed as a raw URL — no regex and no `$top`.
Returns the mails fetched by the chain and the number of follow calls. -/
def deltaFollow (provider : String → PageResponse) : Nat → Option String → List Mail × Nat
  | 0, _ => ([], 0)
  | _ + 1, none => ([], 0)
  | fuel + 1, some link =>
      let resp := provider link
      let rest := deltaFollow provider fuel resp.nextLink
      (resp.value ++ rest.1, rest.2 + 1)

/-- Per-folder delta sync calls (mail_sync.py lines 244-262): one initial
delta call (with `batch_count` starting at 1), then the chain while
`batch_count < 50`, so at most 49 follow calls. -/
def syncFolderDeltaRun (providerInit : Option String → PageResponse)
    (provider : String → PageResponse) (deltaLink : Option String) : List Mail × Nat :=
  let r0 := providerInit deltaLink
  let rest := deltaFollow provider 49 r0.nextLink
  (r0.value ++ rest.1, rest.2 + 1)

/-! ### Message persistence in the sync path (`services/mail_sync.py`)
and queue pushes of the download path (`services/mail_service.py`) -/

/-- A raised Python exception. -/
inductive PyExc
  | nameError (name : String)
deriving DecidableEq

/-- `save_mails_to_db` (mail_sync.py lines 620-694).  An empty batch
returns 0 at line 627.  Otherwise the `try` block's first statement,
`db.execute(...)` at line 648, reads a variable `db` that is bound
nowhere in the function (there is no `get_db()` context in scope) and
raises `NameError`; the handler at line 689 then evaluates
`db.rollback()` which raises `NameError` again, uncaught.  The record
normalization by `prepare_mail_data` is irrelevant to this outcome and is
left opaque.  The second component is the list of items the function
pushes to the write-queue: there is no queue push anywhere in it. -/
def saveMailsToDb (mails : List Mail) : Except PyExc Nat × List RawItem :=
  if mails.isEmpty then (.ok 0, [])
  else (.error (.nameError "db"), [])

/-- Outcome of one sync strategy as consumed by
`_sync_group_mails_with_db`. -/
structure StrategyResult where
  success : Bool
  synced : Nat
deriving DecidableEq

/-- The gating of `update_sync_state` in `_sync_group_mails_with_db`
(mail_sync.py lines 89-92): the per-group sync state is written exactly
when the strategy result reports success. -/
def syncStateUpdated (r : StrategyResult) : Bool :=
  r.success

/-- One successful download of `batch_download_content`. -/
structure DownloadResult where
  message_id : Val
  headers : Val
  body_plain : Val
  body_html : Val
deriving DecidableEq

/-- The write-queue payload built for one downloaded body
(mail_service.py lines 641-652). -/
def downloadPayload (r : DownloadResult) : RawItem :=
  .good "mail_body"
    [("message_id", r.message_id), ("headers", r.headers),
     ("body_plain", r.body_plain), ("body_html", r.body_html)]

/-- The items `batch_download_content` LPUSHes to `sys:db_write_queue`
through one pipeline (mail_service.py lines 636-653): one `mail_body`
payload per successful result, in result order. -/
def batchDownloadPushes (results : List DownloadResult) : List RawItem :=
  results.map downloadPayload

/-! ### Token manager (spec section 4.3) -/

/-- One `account_token` row as read by `get_token_from_db`
(tasks/worker.py lines 34-48). -/
structure TokenRow where
  access_token : String
  refresh_token : String
  at_expires_at : Int
deriving DecidableEq

/-- Response of the provider's refresh endpoint; a `some` refresh field
carries a rotated refresh token, `none` omits one. -/
inductive RefreshResult
  | ok (access : String) (refresh : Option String) (expiresIn : Int)
  | invalidGrant
  | network
deriving DecidableEq

/-- The refresh buffer of spec section 4.3: 300 seconds. -/
def REFRESH_BUFFER : Int := 300

/-- What `GetAccessToken` returns to its caller. -/
inductive TokenOutcome
  | token (access : String)
  | noRow
  | reloginRequired
  | transient
deriving DecidableEq

/-- Modelled from the spec: the database-backed `MSALClient` that
`tasks/worker.py` constructs (passing `group_id`, backed by the
`account_token` row that `get_token_from_db` reads) is not under src/ —
only the file-backed client is.  Sections 4.3 and 7 of the spec define
`GetAccessToken(group)`: read the token row; if
`now + REFRESH_BUFFER ≥ at_expires_at`, call the refresh endpoint with
the stored refresh token and persist the new triple, retaining the
previous refresh token when the response omits one (`malformed_response`
rule); `invalid_grant` clears the row; network errors leave it.  Returns
the persisted row and the outcome. -/
def getAccessToken (now : Int) (row : Option TokenRow)
    (provider : String → RefreshResult) : Option TokenRow × TokenOutcome :=
  match row with
  | none => (none, .noRow)
  | some r =>
      if r.at_expires_at ≤ now + REFRESH_BUFFER then
        match provider r.refresh_token with
        | .ok access newRefresh expiresIn =>
            let r' : TokenRow :=
              { access_token := access,
                refresh_token := newRefresh.getD r.refresh_token,
                at_expires_at := now + expiresIn }
            (some r', .token access)
        | .invalidGrant => (none, .reloginRequired)
        | .network => (some r, .transient)
      else (some r, .token r.access_token)

/-! ### Derived notions used by the statements -/

/-- The first row of a table matching a key — the row a point `SELECT` on
a key-unique table returns. -/
def findByKey {κ : Type} [DecidableEq κ] (key : Row → κ) (t : List Row) (k : κ) : Option Row :=
  t.find? (fun x => decide (key x = k))

/-- The last row of a batch carrying a key: the latest delivered version. -/
def lastRowWith {κ : Type} [DecidableEq κ] (key : Row → κ) (rows : List Row) (k : κ) : Option Row :=
  (rows.filter (fun r => decide (key r = k))).getLast?

/-- Invariant of `BaseTaskManager` under submit/start/finish events:
ids at or above the supply are unused; every task recorded active is the
one its key maps to; a task whose wrapper has not started is `pending`;
a task whose wrapper is mid-run is `running`. -/
def MgrInv (s : MgrState) : Prop :=
  (∀ id, s.next ≤ id → s.tasks id = none) ∧
  (∀ id t, s.tasks id = some t → isActive t.status = true → s.taskKeys t.key = some id) ∧
  (∀ id t, s.tasks id = some t → t.phase = Phase.notStarted → t.status = "pending") ∧
  (∀ id t, s.tasks id = some t → t.phase = Phase.started → t.status = "running")

/-- An empty store, for concrete instantiations. -/
def emptyDB : MailDB :=
  { mail_message := [], mail_body := [], other := [] }

/-- An empty broker state, for concrete instantiations. -/
def emptyRedis : RedisState :=
  { writeQueue := [], writeFailed := [] }

/-- A provider that always returns a non-empty page with a `nextLink`
carrying a skiptoken — the worst case for the pagination loops. -/
def fullPageProvider : ListCall → PageResponse :=
  fun _ => { value := [0], nextLink := some "https://g/m?$skiptoken=T0&x=1", deltaLink := none }

/-- A popped batch in which the second row of table `t` lacks the key `b`
present in the table's first row, while table `u` has a well-formed
row. -/
def rawKeyErrorBatch : List RawItem :=
  [RawItem.good "t" [("a", Val.i 1), ("b", Val.i 2)],
   RawItem.good "t" [("a", Val.i 3)],
   RawItem.good "u" [("x", Val.i 4)]]

/-- A concrete `mail_message` row, for instantiations. -/
def msgRowEx : Row :=
  [("group_id", Val.s "g"), ("msg_uid", Val.s "m"), ("subject", Val.s "hello")]

/-- A concrete `mail_body` row, for instantiations. -/
def bodyRowEx1 : Row :=
  [("message_id", Val.i 1), ("body_html", Val.s "old")]

/-- A later `mail_body` row at the same `message_id`, for instantiations. -/
def bodyRowEx2 : Row :=
  [("message_id", Val.i 1), ("body_html", Val.s "new")]

/-- A concrete stale token row, for instantiations. -/
def tokenRowEx : TokenRow :=
  { access_token := "old", refresh_token := "rt", at_expires_at := 1200 }

/-- A refresh endpoint that succeeds with a one-hour token and no rotated
refresh token, for instantiations. -/
def refreshOkProvider : String → RefreshResult :=
  fun _ => RefreshResult.ok "new" none 3600

/-- A concrete successful download, for instantiations. -/
def downloadResultEx : DownloadResult :=
  { message_id := Val.i 1, headers := Val.s "h",
    body_plain := Val.s "", body_html := Val.s "b" }

/-! ## Theorems -/

/-- Claim C9: `update_task_status` accepts no `task_id` parameter, yet
every Celery task entry point (`sync_group_task`, `login_group_task`,
`sync_folders_task`, `batch_download_task`) and the batch-cancellation
path invoke it with a `task_id` keyword argument; each such invocation
raises `TypeError` at the initial status write, before any task work is
performed (and the cancellation loop counts no task as cancelled). -/
theorem task_id_kwarg_raises_type_error :
    updateTaskStatusCallOk syncGroupInitialKwargs = false ∧
    updateTaskStatusCallOk loginGroupInitialKwargs = false ∧
    updateTaskStatusCallOk syncFoldersInitialKwargs = false ∧
    updateTaskStatusCallOk batchDownloadInitialKwargs = false ∧
    updateTaskStatusCallOk cancelStatusKwargs = false ∧
    (∀ acquireOk, syncGroupTaskTrace acquireOk = [TaskEvent.typeError]) ∧
    (∀ acquireOk, loginGroupTaskTrace acquireOk = [TaskEvent.typeError]) ∧
    (∀ acquireOk, syncFoldersTaskTrace acquireOk = [TaskEvent.typeError]) ∧
    batchDownloadTaskTrace = [TaskEvent.typeError] ∧
    cancelOneTask = ([CancelEvent.revoke, CancelEvent.caughtTypeError], 0) := by
  decide

/-- Claim C7: the Writer Daemon flushes in an iteration exactly when,
after the pop, the buffer holds at least `BATCH_SIZE = 500` items or is
non-empty with at least `FLUSH_INTERVAL = 2` seconds elapsed since the
last flush; a flushed buffer is never empty. -/
theorem writer_flush_trigger (popped : Option RawItem) (now : ℚ) (commitOk : Bool)
    (s : WriterLoopState) (db : MailDB) (rs : RedisState) :
    ((writerStep popped now commitOk s db rs).2.2.2 = true ↔
      (500 ≤ (writerPending popped s).length ∨
        (writerPending popped s ≠ [] ∧ 2 ≤ now - s.lastFlush))) ∧
    ((writerStep popped now commitOk s db rs).2.2.2 = true → writerPending popped s ≠ []) := by
  constructor
  · simp only [writerStep]
    split
    · rename_i h
      simp only [true_iff]
      rcases h with h | h
      · exact Or.inl h
      · exact Or.inr ⟨List.ne_nil_of_length_pos h.1, h.2⟩
    · rename_i h
      simp only [Bool.false_eq_true, false_iff]
      intro hc
      rcases hc with hc | hc
      · exact h (Or.inl hc)
      · exact h (Or.inr ⟨List.length_pos.mpr hc.1, hc.2⟩)
  · simp only [writerStep]
    split
    · rename_i h
      intro _
      rcases h with h | h
      · intro hnil
        rw [hnil] at h
        simp at h
      · exact List.ne_nil_of_length_pos h.1
    · intro hc
      simp at hc

/-- Witness for `writer_flush_trigger`: with one item just popped into an
empty buffer and two seconds on the clock since the last flush, the
iteration flushes, and indeed the buffer is non-empty. -/
theorem writer_flush_trigger_witness :
    (writerStep (some RawItem.bad) 2 true { pending := [], lastFlush := 0 } emptyDB
        emptyRedis).2.2.2 = true ∧
    writerPending (some RawItem.bad) { pending := [], lastFlush := 0 } ≠ [] := by
  have h := writer_flush_trigger (some RawItem.bad) 2 true
    { pending := [], lastFlush := 0 } emptyDB emptyRedis
  constructor
  · exact h.1.mpr (Or.inr ⟨by simp [writerPending], by norm_num⟩)
  · simp [writerPending]

/-- Helper: an effectful map over `Option` fails exactly when one element
fails. -/
theorem mapMO_eq_none {α β : Type} (f : α → Option β) (l : List α) :
    mapMO f l = none ↔ ∃ a ∈ l, f a = none := by
  induction l with
  | nil => simp [mapMO]
  | cons a l ih =>
      cases hfa : f a with
      | none =>
          simp only [mapMO, hfa]
          exact ⟨fun _ => ⟨a, List.mem_cons_self a l, hfa⟩, fun _ => trivial⟩
      | some b =>
          cases hml : mapMO f l with
          | none =>
              simp only [mapMO, hfa, hml]
              refine ⟨fun _ => ?_, fun _ => trivial⟩
              rcases ih.mp hml with ⟨x, hx, hfx⟩
              exact ⟨x, List.mem_cons_of_mem a hx, hfx⟩
          | some bs =>
              simp only [mapMO, hfa, hml]
              constructor
              · intro h
                exact Option.noConfusion h
              · rintro ⟨x, hx, hfx⟩
                rcases List.mem_cons.mp hx with h | h
                · subst h
                  rw [hfa] at hfx
                  exact Option.noConfusion hfx
                · have hc : mapMO f l = none := ih.mpr ⟨x, h, hfx⟩
                  rw [hc] at hml
                  exact Option.noConfusion hml

/-- Helper: one unfolding of `flushBuffer` for a non-empty batch. -/
theorem flushBuffer_ne_nil (raw : List RawItem) (commitOk : Bool) (db : MailDB)
    (rs : RedisState) (hraw : raw ≠ []) :
    flushBuffer raw commitOk db rs =
      (if groupByTable raw = [] then (db, rs, FlushOutcome.noop)
       else
        match buildStmts (groupByTable raw) with
        | some stmts =>
            if commitOk then (stmts.foldl applyStmt db, rs, FlushOutcome.committed)
            else (db, { rs with writeQueue := raw.reverse ++ rs.writeQueue }, FlushOutcome.requeued)
        | none => (db, { rs with writeQueue := raw.reverse ++ rs.writeQueue }, FlushOutcome.requeued)) := by
  simp only [flushBuffer, if_neg hraw]

/-- Helper: no path of a flush writes to the dead-letter list. -/
theorem flushBuffer_writeFailed (raw : List RawItem) (commitOk : Bool) (db : MailDB)
    (rs : RedisState) :
    (flushBuffer raw commitOk db rs).2.1.writeFailed = rs.writeFailed := by
  by_cases hraw : raw = []
  · subst hraw
    rfl
  · rw [flushBuffer_ne_nil raw commitOk db rs hraw]
    by_cases hg : groupByTable raw = []
    · rw [if_pos hg]
    · rw [if_neg hg]
      cases hbs : buildStmts (groupByTable raw) with
      | none => rfl
      | some stmts =>
          cases commitOk with
          | true => rfl
          | false => rfl

/-- Claim C1: a flush commits all well-formed items of the popped batch in
one transaction, or commits none; in the latter case the store is
untouched and every popped raw item — well-formed or not — is LPUSHed
back onto the write-queue so that, in RPOP order, the batch follows the
queue's existing content in its original pop order; the dead-letter list
is never touched. -/
theorem flush_atomicity (raw : List RawItem) (commitOk : Bool) (db : MailDB) (rs : RedisState) :
    (flushBuffer raw commitOk db rs).2.1.writeFailed = rs.writeFailed ∧
    (((flushBuffer raw commitOk db rs).1 = commitResult raw db ∧
        (flushBuffer raw commitOk db rs).2.1.writeQueue = rs.writeQueue) ∨
      ((flushBuffer raw commitOk db rs).1 = db ∧
        ((flushBuffer raw commitOk db rs).2.1.writeQueue).reverse =
          rs.writeQueue.reverse ++ raw)) := by
  by_cases hraw : raw = []
  · subst hraw
    exact ⟨rfl, Or.inl ⟨rfl, rfl⟩⟩
  · rw [flushBuffer_ne_nil raw commitOk db rs hraw]
    by_cases hg : groupByTable raw = []
    · rw [if_pos hg]
      refine ⟨rfl, Or.inl ⟨?_, rfl⟩⟩
      rw [commitResult, hg]
      rfl
    · rw [if_neg hg]
      cases hbs : buildStmts (groupByTable raw) with
      | none =>
          refine ⟨rfl, Or.inr ⟨rfl, ?_⟩⟩
          simp
      | some stmts =>
          cases commitOk with
          | true =>
              refine ⟨rfl, Or.inl ⟨?_, rfl⟩⟩
              simp [commitResult, hbs]
          | false =>
              refine ⟨rfl, Or.inr ⟨rfl, ?_⟩⟩
              simp

/-- Claim C10: the bulk statement of a table fails exactly when some row
of the group lacks a key drawn from the table's first row; any such
failure requeues the entire popped batch — well-formed rows of other
tables included — onto the write-queue with the store untouched; and
neither a flush nor a daemon iteration ever writes to the `write-failed`
dead-letter list. -/
theorem flush_key_error_requeues :
    (∀ (t : String) (r0 : Row) (rest : List Row),
      (buildStmt t (r0 :: rest) = none ↔
        ∃ r ∈ r0 :: rest, ∃ k ∈ r0.map Prod.fst, r.lookup k = none)) ∧
    (∀ (raw : List RawItem) (commitOk : Bool) (db : MailDB) (rs : RedisState),
      buildStmts (groupByTable raw) = none →
        flushBuffer raw commitOk db rs =
          (db, { rs with writeQueue := raw.reverse ++ rs.writeQueue }, FlushOutcome.requeued)) ∧
    (∀ (raw : List RawItem) (commitOk : Bool) (db : MailDB) (rs : RedisState),
      (flushBuffer raw commitOk db rs).2.1.writeFailed = rs.writeFailed) ∧
    (∀ (popped : Option RawItem) (now : ℚ) (commitOk : Bool) (s : WriterLoopState)
        (db : MailDB) (rs : RedisState),
      (writerStep popped now commitOk s db rs).2.2.1.writeFailed = rs.writeFailed) := by
  refine ⟨?_, ?_, ?_, ?_⟩
  · intro t r0 rest
    have hb : buildStmt t (r0 :: rest) = none ↔
        mapMO (projectRow (r0.map Prod.fst)) (r0 :: rest) = none := by
      simp only [buildStmt]
      cases hmm : mapMO (projectRow (r0.map Prod.fst)) (r0 :: rest) <;> simp
    rw [hb, mapMO_eq_none]
    constructor
    · rintro ⟨r, hr, hp⟩
      simp only [projectRow] at hp
      rcases (mapMO_eq_none _ _).mp hp with ⟨k, hk, hlk⟩
      refine ⟨r, hr, k, hk, ?_⟩
      cases hl : r.lookup k with
      | none => rfl
      | some v =>
          rw [hl] at hlk
          exact Option.noConfusion hlk
    · rintro ⟨r, hr, k, hk, hlk⟩
      refine ⟨r, hr, ?_⟩
      simp only [projectRow]
      exact (mapMO_eq_none _ _).mpr ⟨k, hk, by rw [hlk]; rfl⟩
  · intro raw commitOk db rs hnone
    have hraw : raw ≠ [] := by
      intro h
      subst h
      exact Option.noConfusion hnone
    have hg : groupByTable raw ≠ [] := by
      intro h
      rw [h] at hnone
      exact Option.noConfusion hnone
    rw [flushBuffer_ne_nil raw commitOk db rs hraw, if_neg hg, hnone]
  · intro raw commitOk db rs
    exact flushBuffer_writeFailed raw commitOk db rs
  · intro popped now commitOk s db rs
    simp only [writerStep]
    split
    · exact flushBuffer_writeFailed _ commitOk db rs
    · rfl

/-- Witness for `flush_key_error_requeues`: on a concrete batch whose
second row of table `t` lacks key `b`, statement building fails and the
flush hands the whole batch back to the write-queue. -/
theorem flush_key_error_requeues_witness :
    buildStmts (groupByTable rawKeyErrorBatch) = none ∧
    flushBuffer rawKeyErrorBatch true emptyDB emptyRedis =
      (emptyDB,
        { emptyRedis with writeQueue := rawKeyErrorBatch.reverse ++ emptyRedis.writeQueue },
        FlushOutcome.requeued) := by
  have hnone : buildStmts (groupByTable rawKeyErrorBatch) = none := by decide
  exact ⟨hnone, flush_key_error_requeues.2.1 rawKeyErrorBatch true emptyDB emptyRedis hnone⟩

section UpsertLemmas

variable {κ : Type} [DecidableEq κ] (key : Row → κ)

/-- Helper: bulk upsert steps one row at a time. -/
theorem applyIgnore_cons (t : List Row) (r : Row) (rows : List Row) :
    applyIgnore key t (r :: rows) = applyIgnore key (upsertIgnore key t r) rows :=
  rfl

/-- Helper: bulk replace steps one row at a time. -/
theorem applyReplace_cons (t : List Row) (r : Row) (rows : List Row) :
    applyReplace key t (r :: rows) = applyReplace key (upsertReplace key t r) rows :=
  rfl

/-- Helper: `INSERT OR IGNORE` of a row whose key is present is a no-op. -/
theorem upsertIgnore_of_hasKey (t : List Row) (r : Row)
    (h : t.any (fun x => decide (key x = key r)) = true) :
    upsertIgnore key t r = t := by
  unfold upsertIgnore
  rw [if_pos h]

/-- Helper: after `INSERT OR IGNORE` of a row, its key is present. -/
theorem hasKey_upsertIgnore_self (t : List Row) (r : Row) :
    (upsertIgnore key t r).any (fun x => decide (key x = key r)) = true := by
  unfold upsertIgnore
  split
  · rename_i h
    exact h
  · simp [List.any_append]

/-- Helper: `INSERT OR IGNORE` never removes a present key. -/
theorem hasKey_upsertIgnore_mono (t : List Row) (r : Row) (k : κ)
    (h : t.any (fun x => decide (key x = k)) = true) :
    (upsertIgnore key t r).any (fun x => decide (key x = k)) = true := by
  unfold upsertIgnore
  split
  · exact h
  · simp [List.any_append, h]

/-- Helper: bulk `INSERT OR IGNORE` never removes a present key. -/
theorem hasKey_applyIgnore_mono (rows : List Row) (t : List Row) (k : κ)
    (h : t.any (fun x => decide (key x = k)) = true) :
    (applyIgnore key t rows).any (fun x => decide (key x = k)) = true := by
  induction rows generalizing t with
  | nil => exact h
  | cons a rows ih =>
      rw [applyIgnore_cons]
      exact ih _ (hasKey_upsertIgnore_mono key t a k h)

/-- Helper: after a bulk `INSERT OR IGNORE`, every key of the batch is
present. -/
theorem hasKey_applyIgnore_self (rows : List Row) (t : List Row) (r : Row) (hr : r ∈ rows) :
    (applyIgnore key t rows).any (fun x => decide (key x = key r)) = true := by
  induction rows generalizing t with
  | nil => cases hr
  | cons a rows ih =>
      rw [applyIgnore_cons]
      rcases List.mem_cons.mp hr with h | h
      · subst h
        exact hasKey_applyIgnore_mono key rows _ _ (hasKey_upsertIgnore_self key t r)
      · exact ih _ h

/-- Helper: `INSERT OR IGNORE` preserves distinctness of table keys. -/
theorem upsertIgnore_keys_nodup (t : List Row) (r : Row)
    (h : (t.map key).Nodup) : ((upsertIgnore key t r).map key).Nodup := by
  unfold upsertIgnore
  split
  · exact h
  · rename_i hany
    have hnotin : key r ∉ t.map key := by
      intro hmem
      rcases List.mem_map.mp hmem with ⟨x, hx, hxx⟩
      exact hany (List.any_eq_true.mpr ⟨x, hx, by simp [hxx]⟩)
    rw [List.map_append]
    rw [List.nodup_append]
    refine ⟨h, List.nodup_singleton _, ?_⟩
    intro a ha hmem
    rcases List.mem_singleton.mp hmem with rfl
    exact hnotin ha

/-- Helper: bulk `INSERT OR IGNORE` preserves distinctness of keys. -/
theorem applyIgnore_keys_nodup (rows : List Row) (t : List Row)
    (h : (t.map key).Nodup) : ((applyIgnore key t rows).map key).Nodup := by
  induction rows generalizing t with
  | nil => exact h
  | cons a rows ih =>
      rw [applyIgnore_cons]
      exact ih _ (upsertIgnore_keys_nodup key t a h)

/-- Helper: re-applying rows whose keys are all present is the identity. -/
theorem applyIgnore_of_all_hasKey (rows : List Row) (t : List Row)
    (h : ∀ r ∈ rows, t.any (fun x => decide (key x = key r)) = true) :
    applyIgnore key t rows = t := by
  induction rows with
  | nil => rfl
  | cons a rows ih =>
      rw [applyIgnore_cons, upsertIgnore_of_hasKey key t a (h a (List.mem_cons_self a rows))]
      exact ih (fun r hr => h r (List.mem_cons_of_mem a hr))

/-- Helper: bulk `INSERT OR IGNORE` is idempotent. -/
theorem applyIgnore_idem (t : List Row) (rows : List Row) :
    applyIgnore key (applyIgnore key t rows) rows = applyIgnore key t rows :=
  applyIgnore_of_all_hasKey key rows _ (fun r hr => hasKey_applyIgnore_self key rows t r hr)

/-- Helper: the in-place replacement of `INSERT OR REPLACE` reaches the
first row carrying the key. -/
theorem find?_map_replace (t : List Row) (r : Row) :
    (t.map (fun x => if key x = key r then r else x)).find?
        (fun x => decide (key x = key r)) =
      (if t.any (fun x => decide (key x = key r)) then some r else none) := by
  induction t with
  | nil => simp
  | cons a t ih =>
      by_cases ha : key a = key r
      · simp [List.find?, ha]
      · simp only [List.map_cons, List.find?, if_neg ha, List.any_cons]
        rw [ih]
        simp [ha]

/-- Helper: a point lookup after `INSERT OR REPLACE` of a row returns
that row at its key. -/
theorem findByKey_upsertReplace_self (t : List Row) (r : Row) :
    findByKey key (upsertReplace key t r) (key r) = some r := by
  unfold upsertReplace findByKey
  by_cases hany : t.any (fun x => decide (key x = key r)) = true
  · rw [if_pos hany, find?_map_replace, if_pos hany]
  · rw [if_neg hany, List.find?_append]
    have hnone : t.find? (fun x => decide (key x = key r)) = none := by
      rw [List.find?_eq_none]
      intro x hx hpx
      exact hany (List.any_eq_true.mpr ⟨x, hx, hpx⟩)
    rw [hnone]
    simp

/-- Helper: in-place replacement leaves lookups at other keys alone. -/
theorem find?_map_replace_ne (t : List Row) (r : Row) (k : κ) (hk : k ≠ key r) :
    (t.map (fun x => if key x = key r then r else x)).find?
        (fun x => decide (key x = k)) =
      t.find? (fun x => decide (key x = k)) := by
  induction t with
  | nil => rfl
  | cons a t ih =>
      by_cases ha : key a = key r
      · have hak : decide (key a = k) = false := by
          simp only [decide_eq_false_iff_not]
          rw [ha]
          exact fun h => hk h.symm
        have hrk : decide (key r = k) = false := by
          simp only [decide_eq_false_iff_not]
          exact fun h => hk h.symm
        simp only [List.map_cons, List.find?, if_pos ha, hrk, hak]
        exact ih
      · simp only [List.map_cons, List.find?, if_neg ha]
        cases hax : decide (key a = k) with
        | true => rfl
        | false => exact ih

/-- Helper: a point lookup at a different key is untouched by
`INSERT OR REPLACE`. -/
theorem findByKey_upsertReplace_ne (t : List Row) (r : Row) (k : κ) (hk : k ≠ key r) :
    findByKey key (upsertReplace key t r) k = findByKey key t k := by
  unfold upsertReplace findByKey
  by_cases hany : t.any (fun x => decide (key x = key r)) = true
  · rw [if_pos hany]
    exact find?_map_replace_ne key t r k hk
  · rw [if_neg hany, List.find?_append]
    have hrk : decide (key r = k) = false := by
      simp only [decide_eq_false_iff_not]
      exact fun h => hk h.symm
    cases hft : t.find? (fun x => decide (key x = k)) with
    | some v => simp [Option.or]
    | none => simp [Option.or, List.find?, hrk]

/-- Helper: after a bulk `INSERT OR REPLACE`, a point lookup returns the
last delivered row with that key, falling back to the prior table. -/
theorem findByKey_applyReplace (rows : List Row) (t : List Row) (k : κ) :
    findByKey key (applyReplace key t rows) k =
      (match lastRowWith key rows k with
       | some r => some r
       | none => findByKey key t k) := by
  induction rows generalizing t with
  | nil => rfl
  | cons r rows ih =>
      rw [applyReplace_cons, ih]
      cases hlast : lastRowWith key rows k with
      | some r' =>
          have hne : (rows.filter (fun x => decide (key x = k))) ≠ [] := by
            intro h
            unfold lastRowWith at hlast
            rw [h] at hlast
            exact Option.noConfusion hlast
          have hcons : lastRowWith key (r :: rows) k = some r' := by
            unfold lastRowWith at hlast ⊢
            rw [List.filter_cons]
            split
            · cases hf : rows.filter (fun x => decide (key x = k)) with
              | nil => exact absurd hf hne
              | cons b l =>
                  rw [hf] at hlast
                  rw [List.getLast?_cons_cons]
                  exact hlast
            · exact hlast
          rw [hcons]
      | none =>
          have hfilnil : rows.filter (fun x => decide (key x = k)) = [] := by
            unfold lastRowWith at hlast
            cases hf : rows.filter (fun x => decide (key x = k)) with
            | nil => rfl
            | cons b l =>
                rw [hf] at hlast
                have hne2 : (b :: l).getLast? ≠ none := by
                  intro hg
                  exact List.noConfusion (List.getLast?_eq_none_iff.mp hg)
                exact absurd hlast hne2
          by_cases hrk : key r = k
          · have hcons : lastRowWith key (r :: rows) k = some r := by
              unfold lastRowWith
              rw [List.filter_cons, if_pos (by simp [hrk]), hfilnil]
              rfl
            rw [hcons]
            subst hrk
            exact findByKey_upsertReplace_self key t r
          · have hcons : lastRowWith key (r :: rows) k = none := by
              unfold lastRowWith
              rw [List.filter_cons, if_neg (by simp [hrk]), hfilnil]
              rfl
            rw [hcons]
            exact findByKey_upsertReplace_ne key t r k (fun h => hrk h.symm)

end UpsertLemmas

/-- Claim C2: the Writer Daemon writes `mail_body` rows with
`INSERT OR REPLACE` and every other table — `mail_message` in particular
— with `INSERT OR IGNORE`; under the spec-modelled keys, a
`mail_message` table with distinct `(group_id, msg_uid)` keys keeps them
distinct across any bulk write, re-delivering the same batch leaves the
table unchanged, and a `mail_body` point lookup after delivery — or
re-delivery — returns the batch's latest row at that `message_id`, so no
body update is lost. -/
theorem mail_upsert_idempotent :
    actionFor "mail_body" = SqlAction.replace ∧
    (∀ t : String, t ≠ "mail_body" → actionFor t = SqlAction.ignore) ∧
    (∀ (db : MailDB) (st : BulkStmt), st.table = "mail_message" →
      (applyStmt db st).mail_message = applyIgnore msgKey db.mail_message st.rows) ∧
    (∀ (db : MailDB) (st : BulkStmt), st.table = "mail_body" →
      (applyStmt db st).mail_body = applyReplace bodyKey db.mail_body st.rows) ∧
    (∀ tbl rows : List Row, (tbl.map msgKey).Nodup →
      ((applyIgnore msgKey tbl rows).map msgKey).Nodup) ∧
    (∀ tbl rows : List Row,
      applyIgnore msgKey (applyIgnore msgKey tbl rows) rows = applyIgnore msgKey tbl rows) ∧
    (∀ (tbl rows : List Row) (k : Option Val),
      findByKey bodyKey (applyReplace bodyKey tbl rows) k =
        (match lastRowWith bodyKey rows k with
         | some r => some r
         | none => findByKey bodyKey tbl k)) ∧
    (∀ (tbl rows : List Row) (k : Option Val) (r : Row),
      lastRowWith bodyKey rows k = some r →
        findByKey bodyKey (applyReplace bodyKey (applyReplace bodyKey tbl rows) rows) k =
          some r) := by
  refine ⟨rfl, ?_, ?_, ?_, ?_, ?_, ?_, ?_⟩
  · intro t ht
    unfold actionFor
    rw [if_neg ht]
  · intro db st h
    simp [applyStmt, h]
  · intro db st h
    simp [applyStmt, h]
  · intro tbl rows h
    exact applyIgnore_keys_nodup msgKey rows tbl h
  · intro tbl rows
    exact applyIgnore_idem msgKey tbl rows
  · intro tbl rows k
    exact findByKey_applyReplace bodyKey rows tbl k
  · intro tbl rows k r h
    rw [findByKey_applyReplace bodyKey rows (applyReplace bodyKey tbl rows) k, h]

/-- Witness for `mail_upsert_idempotent`: concrete instantiations — the
`mail_message` action is `IGNORE`; a singleton delivery keeps keys
distinct; delivering a duplicated message batch twice equals delivering
it once; and after re-delivering a body batch whose two rows share
`message_id = 1`, the stored body at that key is the second row. -/
theorem mail_upsert_idempotent_witness :
    actionFor "mail_message" = SqlAction.ignore ∧
    ((applyIgnore msgKey [] [msgRowEx]).map msgKey).Nodup ∧
    applyIgnore msgKey (applyIgnore msgKey [] [msgRowEx, msgRowEx]) [msgRowEx, msgRowEx] =
      applyIgnore msgKey [] [msgRowEx, msgRowEx] ∧
    findByKey bodyKey
        (applyReplace bodyKey (applyReplace bodyKey [] [bodyRowEx1, bodyRowEx2])
          [bodyRowEx1, bodyRowEx2])
        (bodyKey bodyRowEx1) = some bodyRowEx2 := by
  refine ⟨mail_upsert_idempotent.2.1 "mail_message" (by decide), ?_, ?_, ?_⟩
  · exact mail_upsert_idempotent.2.2.2.2.1 [] [msgRowEx] (by decide)
  · exact mail_upsert_idempotent.2.2.2.2.2.1 [] [msgRowEx, msgRowEx]
  · exact mail_upsert_idempotent.2.2.2.2.2.2.2 [] [bodyRowEx1, bodyRowEx2]
      (bodyKey bodyRowEx1) bodyRowEx2 (by decide)

/-- Helper: along a valid trace the semaphore counter equals the number
of slot holders, and the holders never exceed the limit. -/
theorem semRun_inv (limit : Nat) (ops : List SemOp) :
    ∀ s : SemState, s.count = (s.holders : Int) → s.holders ≤ limit →
      ValidTrace limit s ops →
        (semRun limit s ops).count = ((semRun limit s ops).holders : Int) ∧
          (semRun limit s ops).holders ≤ limit := by
  induction ops with
  | nil =>
      intro s h1 h2 _
      exact ⟨h1, h2⟩
  | cons op ops ih =>
      intro s h1 h2 hv
      simp only [ValidTrace] at hv
      rcases hv with ⟨hrel, hrest⟩
      have hstep : semRun limit s (op :: ops) = semRun limit (semStep limit s op) ops := rfl
      rw [hstep]
      cases op with
      | acq =>
          by_cases hle : (limit : Int) < s.count + 1
          · have hs : semStep limit s SemOp.acq = s := by
              simp only [semStep, semAcquire, if_pos hle]
            rw [hs] at hrest ⊢
            exact ih s h1 h2 hrest
          · have hs : semStep limit s SemOp.acq =
                { count := s.count + 1, holders := s.holders + 1 } := by
              simp only [semStep, semAcquire, if_neg hle]
            rw [hs] at hrest ⊢
            refine ih _ ?_ ?_ hrest
            · show s.count + 1 = ((s.holders + 1 : Nat) : Int)
              omega
            · show s.holders + 1 ≤ limit
              omega
      | rel =>
          have hpos : 0 < s.holders := hrel rfl
          have hs : semStep limit s SemOp.rel =
              { count := s.count - 1, holders := s.holders - 1 } := rfl
          rw [hs] at hrest ⊢
          refine ih _ ?_ ?_ hrest
          · show s.count - 1 = ((s.holders - 1 : Nat) : Int)
            omega
          · show s.holders - 1 ≤ limit
            omega

/-- Claim C5 (amended): the per-user cap is 30 for the admin role and 10
otherwise, and along any trace whose releases come from slot holders the
number of tasks holding a slot never exceeds the cap; a guard entry that
cannot acquire raises a Celery retry with a 5 second countdown, leaving
the semaphore as it was and writing no status key, while a successful
entry takes the slot; but `sync_group_task` attempts its `RUNNING`
status write before entering the guard, and as coded that write raises
`TypeError`, so a sync submission that cannot acquire a slot fails
instead of being retried. -/
theorem semaphore_cap_and_guard :
    capForRole "admin" = 30 ∧
    (∀ role : String, role ≠ "admin" → capForRole role = 10) ∧
    (∀ (role : String) (ops : List SemOp),
      ValidTrace (capForRole role) { count := 0, holders := 0 } ops →
        (semRun (capForRole role) { count := 0, holders := 0 } ops).holders ≤
          capForRole role) ∧
    (∀ (limit : Nat) (s : SemState), (limit : Int) < s.count + 1 →
      userConcurrencyGuard limit s = (s, GuardResult.retryBackoff 5)) ∧
    (∀ (limit : Nat) (s : SemState), s.count + 1 ≤ (limit : Int) →
      userConcurrencyGuard limit s =
        ({ count := s.count + 1, holders := s.holders + 1 }, GuardResult.acquired)) ∧
    (∀ acquireOk : Bool, syncGroupTaskTrace acquireOk = [TaskEvent.typeError]) := by
  refine ⟨rfl, ?_, ?_, ?_, ?_, by decide⟩
  · intro role h
    unfold capForRole
    rw [if_neg h]
  · intro role ops hv
    exact (semRun_inv (capForRole role) ops { count := 0, holders := 0 } rfl
      (Nat.zero_le _) hv).2
  · intro limit s h
    unfold userConcurrencyGuard semAcquire
    rw [if_pos h]
  · intro limit s h
    unfold userConcurrencyGuard semAcquire
    rw [if_neg (not_lt.mpr h)]

/-- Witness for `semaphore_cap_and_guard`: the non-admin cap is 10, one
acquisition from idle respects it, a full semaphore turns the guard into
a 5 second retry, and an idle one grants the slot. -/
theorem semaphore_cap_and_guard_witness :
    capForRole "user" = 10 ∧
    (semRun (capForRole "user") { count := 0, holders := 0 } [SemOp.acq]).holders ≤
      capForRole "user" ∧
    userConcurrencyGuard 10 { count := 10, holders := 10 } =
      ({ count := 10, holders := 10 }, GuardResult.retryBackoff 5) ∧
    userConcurrencyGuard 10 { count := 0, holders := 0 } =
      ({ count := 1, holders := 1 }, GuardResult.acquired) := by
  refine ⟨semaphore_cap_and_guard.2.1 "user" (by decide), ?_, ?_, ?_⟩
  · exact semaphore_cap_and_guard.2.2.1 "user" [SemOp.acq] (by simp [ValidTrace])
  · exact semaphore_cap_and_guard.2.2.2.1 10 { count := 10, holders := 10 } (by norm_num)
  · exact semaphore_cap_and_guard.2.2.2.2.1 10 { count := 0, holders := 0 } (by norm_num)

/-- Counterexample to claim C5 as stated: a `sync_group_task` invocation
that could not acquire a slot is not retried after a backoff — its very
first status write raises `TypeError`, before the semaphore is even
consulted, so no retry event and no guard acquisition appear in its
trace. -/
theorem sync_submission_not_retried :
    syncGroupTaskTrace false = [TaskEvent.typeError] ∧
    TaskEvent.retryBackoff 5 ∉ syncGroupTaskTrace false ∧
    TaskEvent.guardAcquired ∉ syncGroupTaskTrace false := by
  decide

/-- Helper: the fresh manager satisfies the invariant. -/
theorem mgrInv_init : MgrInv initMgr :=
  ⟨fun _ _ => rfl, fun _ _ h => Option.noConfusion h, fun _ _ h => Option.noConfusion h,
   fun _ _ h => Option.noConfusion h⟩

/-- Helper: creating and scheduling a fresh task preserves the invariant
when no recorded-active task carries its key. -/
theorem freshSubmit_inv (s : MgrState) (k tt : String) (h : MgrInv s)
    (hno : ∀ id t, s.tasks id = some t → t.key = k → isActive t.status = true → False) :
    MgrInv (freshSubmit s k tt).1 := by
  obtain ⟨hfresh, hmap, hnsp, hsr⟩ := h
  refine ⟨?_, ?_, ?_, ?_⟩
  · intro id hid
    have hid' : s.next + 1 ≤ id := hid
    show (if id = s.next then some (newRec k tt) else s.tasks id) = none
    rw [if_neg (by omega)]
    exact hfresh id (by omega)
  · intro id t hid hact
    have hid' : (if id = s.next then some (newRec k tt) else s.tasks id) = some t := hid
    show (if t.key = k then some s.next else s.taskKeys t.key) = some id
    by_cases hidn : id = s.next
    · subst hidn
      rw [if_pos rfl] at hid'
      injection hid' with ht
      subst ht
      simp [newRec]
    · rw [if_neg hidn] at hid'
      have hkne : t.key ≠ k := fun hk => hno id t hid' hk hact
      rw [if_neg hkne]
      exact hmap id t hid' hact
  · intro id t hid hph
    have hid' : (if id = s.next then some (newRec k tt) else s.tasks id) = some t := hid
    by_cases hidn : id = s.next
    · subst hidn
      rw [if_pos rfl] at hid'
      injection hid' with ht
      subst ht
      rfl
    · rw [if_neg hidn] at hid'
      exact hnsp id t hid' hph
  · intro id t hid hph
    have hid' : (if id = s.next then some (newRec k tt) else s.tasks id) = some t := hid
    by_cases hidn : id = s.next
    · subst hidn
      rw [if_pos rfl] at hid'
      injection hid' with ht
      subst ht
      simp [newRec] at hph
    · rw [if_neg hidn] at hid'
      exact hsr id t hid' hph

/-- Helper: submission preserves the invariant. -/
theorem submitTask_inv (s : MgrState) (k tt : String) (h : MgrInv s) :
    MgrInv (submitTask s k tt).1 := by
  obtain ⟨hfresh, hmap, hnsp, hsr⟩ := h
  unfold submitTask
  cases hkey : s.taskKeys k with
  | none =>
      refine freshSubmit_inv s k tt ⟨hfresh, hmap, hnsp, hsr⟩ ?_
      intro id t hid hk hact
      have hm := hmap id t hid hact
      rw [hk, hkey] at hm
      exact Option.noConfusion hm
  | some id0 =>
      show MgrInv (match s.tasks id0 with
        | some t => if isActive t.status = true then (s, id0) else freshSubmit s k tt
        | none => freshSubmit s k tt).1
      cases htid : s.tasks id0 with
      | none =>
          refine freshSubmit_inv s k tt ⟨hfresh, hmap, hnsp, hsr⟩ ?_
          intro id t hid hk hact
          have hm := hmap id t hid hact
          rw [hk, hkey] at hm
          injection hm with hm2
          subst hm2
          rw [hid] at htid
          exact Option.noConfusion htid
      | some t0 =>
          show MgrInv (if isActive t0.status = true then (s, id0) else freshSubmit s k tt).1
          by_cases hact0 : isActive t0.status = true
          · rw [if_pos hact0]
            exact ⟨hfresh, hmap, hnsp, hsr⟩
          · rw [if_neg hact0]
            refine freshSubmit_inv s k tt ⟨hfresh, hmap, hnsp, hsr⟩ ?_
            intro id t hid hk hact
            have hm := hmap id t hid hact
            rw [hk, hkey] at hm
            injection hm with hm2
            subst hm2
            rw [hid] at htid
            injection htid with ht0
            subst ht0
            exact hact0 hact

/-- Helper: the wrapper's initial `running` write preserves the
invariant. -/
theorem startTask_inv (s : MgrState) (id0 : Nat) (h : MgrInv s) :
    MgrInv (startTask s id0) := by
  obtain ⟨hfresh, hmap, hnsp, hsr⟩ := h
  unfold startTask
  cases htid : s.tasks id0 with
  | none => exact ⟨hfresh, hmap, hnsp, hsr⟩
  | some t0 =>
      show MgrInv (if t0.phase = Phase.notStarted then
        { s with tasks := fun n => if n = id0 then some (startedRec t0) else s.tasks n }
        else s)
      by_cases hph : t0.phase = Phase.notStarted
      · rw [if_pos hph]
        have hpend : t0.status = "pending" := hnsp id0 t0 htid hph
        have hact0 : isActive t0.status = true := by
          rw [hpend]
          decide
        have hmapped : s.taskKeys t0.key = some id0 := hmap id0 t0 htid hact0
        have hlt : id0 < s.next := by
          by_contra hge
          have hn := hfresh id0 (by omega)
          rw [hn] at htid
          exact Option.noConfusion htid
        refine ⟨?_, ?_, ?_, ?_⟩
        · intro id hid
          have hid' : s.next ≤ id := hid
          show (if id = id0 then some (startedRec t0) else s.tasks id) = none
          rw [if_neg (by omega)]
          exact hfresh id hid'
        · intro id t hid hact
          have hid' : (if id = id0 then some (startedRec t0) else s.tasks id) = some t := hid
          by_cases hidn : id = id0
          · subst hidn
            rw [if_pos rfl] at hid'
            injection hid' with ht
            subst ht
            exact hmapped
          · rw [if_neg hidn] at hid'
            exact hmap id t hid' hact
        · intro id t hid hph2
          have hid' : (if id = id0 then some (startedRec t0) else s.tasks id) = some t := hid
          by_cases hidn : id = id0
          · subst hidn
            rw [if_pos rfl] at hid'
            injection hid' with ht
            subst ht
            simp [startedRec] at hph2
          · rw [if_neg hidn] at hid'
            exact hnsp id t hid' hph2
        · intro id t hid hph2
          have hid' : (if id = id0 then some (startedRec t0) else s.tasks id) = some t := hid
          by_cases hidn : id = id0
          · subst hidn
            rw [if_pos rfl] at hid'
            injection hid' with ht
            subst ht
            rfl
          · rw [if_neg hidn] at hid'
            exact hsr id t hid' hph2
      · rw [if_neg hph]
        exact ⟨hfresh, hmap, hnsp, hsr⟩

/-- Helper: the wrapper's terminal write and key cleanup preserve the
invariant. -/
theorem finishTask_inv (s : MgrState) (id0 : Nat) (ok : Bool) (h : MgrInv s) :
    MgrInv (finishTask s id0 ok) := by
  obtain ⟨hfresh, hmap, hnsp, hsr⟩ := h
  unfold finishTask
  cases htid : s.tasks id0 with
  | none => exact ⟨hfresh, hmap, hnsp, hsr⟩
  | some t0 =>
      show MgrInv (if t0.phase = Phase.started then
        { s with
          tasks := fun n => if n = id0 then some (finishedRec t0 ok) else s.tasks n,
          taskKeys := fun k => if k = t0.key ∧ s.taskKeys t0.key = some id0 then none
            else s.taskKeys k }
        else s)
      by_cases hph : t0.phase = Phase.started
      · rw [if_pos hph]
        have hrun : t0.status = "running" := hsr id0 t0 htid hph
        have hact0 : isActive t0.status = true := by
          rw [hrun]
          decide
        have hmapped : s.taskKeys t0.key = some id0 := hmap id0 t0 htid hact0
        have hstat : isActive (finishedRec t0 ok).status = false := by
          simp only [finishedRec, hrun]
          cases ok <;> decide
        have hlt : id0 < s.next := by
          by_contra hge
          have hn := hfresh id0 (by omega)
          rw [hn] at htid
          exact Option.noConfusion htid
        refine ⟨?_, ?_, ?_, ?_⟩
        · intro id hid
          have hid' : s.next ≤ id := hid
          show (if id = id0 then some (finishedRec t0 ok) else s.tasks id) = none
          rw [if_neg (by omega)]
          exact hfresh id hid'
        · intro id t hid hact
          have hid' : (if id = id0 then some (finishedRec t0 ok) else s.tasks id) = some t := hid
          show (if t.key = t0.key ∧ s.taskKeys t0.key = some id0 then none
            else s.taskKeys t.key) = some id
          by_cases hidn : id = id0
          · subst hidn
            rw [if_pos rfl] at hid'
            injection hid' with ht
            subst ht
            rw [hstat] at hact
            exact Bool.noConfusion hact
          · rw [if_neg hidn] at hid'
            have hm := hmap id t hid' hact
            have hcond : ¬ (t.key = t0.key ∧ s.taskKeys t0.key = some id0) := by
              rintro ⟨hk, _⟩
              rw [hk, hmapped] at hm
              injection hm with hm2
              exact hidn hm2.symm
            rw [if_neg hcond]
            exact hm
        · intro id t hid hph2
          have hid' : (if id = id0 then some (finishedRec t0 ok) else s.tasks id) = some t := hid
          by_cases hidn : id = id0
          · subst hidn
            rw [if_pos rfl] at hid'
            injection hid' with ht
            subst ht
            simp [finishedRec] at hph2
          · rw [if_neg hidn] at hid'
            exact hnsp id t hid' hph2
        · intro id t hid hph2
          have hid' : (if id = id0 then some (finishedRec t0 ok) else s.tasks id) = some t := hid
          by_cases hidn : id = id0
          · subst hidn
            rw [if_pos rfl] at hid'
            injection hid' with ht
            subst ht
            simp [finishedRec] at hph2
          · rw [if_neg hidn] at hid'
            exact hsr id t hid' hph2
      · rw [if_neg hph]
        exact ⟨hfresh, hmap, hnsp, hsr⟩

/-- Helper: every manager event preserves the invariant. -/
theorem mgrStep_inv (s : MgrState) (op : MgrOp) (h : MgrInv s) : MgrInv (mgrStep s op) := by
  cases op with
  | submit k tt => exact submitTask_inv s k tt h
  | start id => exact startTask_inv s id h
  | finish id ok => exact finishTask_inv s id ok h

/-- Helper: the invariant holds in every reachable manager state. -/
theorem mgrRun_inv (ops : List MgrOp) : MgrInv (mgrRun initMgr ops) := by
  suffices haux : ∀ (ops2 : List MgrOp) (s : MgrState), MgrInv s → MgrInv (mgrRun s ops2) from
    haux ops initMgr mgrInv_init
  intro ops2
  induction ops2 with
  | nil =>
      intro s h
      exact h
  | cons op ops2 ih =>
      intro s h
      exact ih (mgrStep s op) (mgrStep_inv s op h)

/-- Helper: the dedup key read by `get_task_status` and the status key
written by `update_task_status` never coincide: one starts `task:`, the
other `sys:status:user:`. -/
theorem statusKey_mismatch (u g : String) :
    makeStatusKey u g "sync" ≠ statusKeyTemplate u "sync" g := by
  intro h
  have hd := congrArg String.data h
  simp only [makeStatusKey, statusKeyTemplate, String.data_append] at hd
  simp at hd

/-- Claim C4 (amended): `BaseTaskManager.submit_task` dedups — a
submission whose key maps to a task recorded `pending` or `running`
returns that task's id with the state, scheduled work included,
unchanged — and in every manager state reachable by submit/start/finish
events (no cancellation) at most one task per task key is recorded
`pending` or `running`; but the Celery path `OAuthService.submit_sync`
reads its dedup key from `task:{user}:{group}:{type}` while statuses are
written under `sys:status:user:{user}:type:{type}:group:{group}`, keys
that never coincide, so a repeated sync submission finds no status and
schedules a second task even while the first is recorded `PENDING`. -/
theorem submit_dedup_unique :
    (∀ (s : MgrState) (key ttype : String) (id : Nat) (t : TaskRec),
      s.taskKeys key = some id → s.tasks id = some t → isActive t.status = true →
        submitTask s key ttype = (s, id)) ∧
    (∀ (ops : List MgrOp) (id1 id2 : Nat) (t1 t2 : TaskRec),
      (mgrRun initMgr ops).tasks id1 = some t1 →
      (mgrRun initMgr ops).tasks id2 = some t2 →
      isActive t1.status = true → isActive t2.status = true →
      t1.key = t2.key → id1 = id2) ∧
    (∀ u g : String, makeStatusKey u g "sync" ≠ statusKeyTemplate u "sync" g) ∧
    (∀ u g : String,
      (submitSync emptySubmitState g u).1.kv (statusKeyTemplate u "sync" g) =
        some "PENDING" ∧
      (submitSync (submitSync emptySubmitState g u).1 g u).1.celeryQueue =
        [(g, u), (g, u)]) := by
  refine ⟨?_, ?_, statusKey_mismatch, ?_⟩
  · intro s key ttype id t hk ht hact
    unfold submitTask
    rw [hk]
    show (match s.tasks id with
      | some t => if isActive t.status = true then (s, id) else freshSubmit s key ttype
      | none => freshSubmit s key ttype) = (s, id)
    rw [ht]
    show (if isActive t.status = true then (s, id) else freshSubmit s key ttype) = (s, id)
    rw [if_pos hact]
  · intro ops id1 id2 t1 t2 h1 h2 hact1 hact2 hkeys
    have hinv := mgrRun_inv ops
    have e1 := hinv.2.1 id1 t1 h1 hact1
    have e2 := hinv.2.1 id2 t2 h2 hact2
    rw [hkeys, e2] at e1
    injection e1 with e1
    exact e1.symm
  · intro u g
    have hst1 : (submitSync emptySubmitState g u).1 =
        { kv := fun kk => if kk = statusKeyTemplate u "sync" g then some "PENDING" else none,
          celeryQueue := [(g, u)] } := rfl
    constructor
    · rw [hst1]
      show (if statusKeyTemplate u "sync" g = statusKeyTemplate u "sync" g
        then some "PENDING" else none) = some "PENDING"
      rw [if_pos rfl]
    · rw [hst1]
      have hget : getTaskStatus
          { kv := fun kk => if kk = statusKeyTemplate u "sync" g then some "PENDING" else none,
            celeryQueue := [(g, u)] } u g "sync" = none := by
        show (if makeStatusKey u g "sync" = statusKeyTemplate u "sync" g
          then some "PENDING" else none) = none
        rw [if_neg (statusKey_mismatch u g)]
      unfold submitSync
      rw [hget]
      rfl

/-- Witness for `submit_dedup_unique`: in the manager holding one pending
`sync` task (id 0, key `sync_G`), resubmitting the key returns id 0 with
nothing scheduled anew; and in the state reached by that one submission,
two recorded-active tasks sharing a key have equal ids. -/
theorem submit_dedup_unique_witness :
    submitTask (freshSubmit initMgr "sync_G" "sync").1 "sync_G" "sync" =
      ((freshSubmit initMgr "sync_G" "sync").1, 0) ∧
    (∀ t1 t2 : TaskRec,
      (mgrRun initMgr [MgrOp.submit "sync_G" "sync"]).tasks 0 = some t1 →
      (mgrRun initMgr [MgrOp.submit "sync_G" "sync"]).tasks 0 = some t2 →
      isActive t1.status = true → isActive t2.status = true →
      t1.key = t2.key → (0 : Nat) = 0) := by
  constructor
  · exact submit_dedup_unique.1 (freshSubmit initMgr "sync_G" "sync").1 "sync_G" "sync" 0
      (newRec "sync_G" "sync") rfl rfl (by decide)
  · intro t1 t2 h1 h2 hact1 hact2 hkeys
    exact submit_dedup_unique.2.1 [MgrOp.submit "sync_G" "sync"] 0 0 t1 t2 h1 h2
      hact1 hact2 hkeys

/-- Counterexample to claim C4 as stated: submitting a sync for user `7`
and group `G` records `PENDING`, yet a second submission of the same key
schedules a second Celery task (and returns only a boolean, not the
existing task's id) — its dedup check read a key that the status write
never touches. -/
theorem duplicate_sync_submission :
    (submitSync emptySubmitState "G" "7").1.kv (statusKeyTemplate "7" "sync" "G") =
      some "PENDING" ∧
    (submitSync (submitSync emptySubmitState "G" "7").1 "G" "7").1.celeryQueue =
      [("G", "7"), ("G", "7")] ∧
    (submitSync (submitSync emptySubmitState "G" "7").1 "G" "7").2 = true := by
  refine ⟨rfl, ?_, rfl⟩
  rfl

/-- Helper: the skip-token pagination loop makes at most `fuel` list
calls, each assembled by `mkCall`. -/
theorem paginate_calls (provider : ListCall → PageResponse) (mkCall : Option String → ListCall) :
    ∀ (fuel : Nat) (tok : Option String),
      (paginate provider mkCall fuel tok).2.length ≤ fuel ∧
      ∀ c ∈ (paginate provider mkCall fuel tok).2, ∃ t0, c = mkCall t0 := by
  intro fuel
  induction fuel with
  | zero =>
      intro tok
      exact ⟨Nat.le_refl 0, fun c hc => absurd hc (List.not_mem_nil c)⟩
  | succ fuel ih =>
      intro tok
      simp only [paginate]
      split
      · refine ⟨by simp, ?_⟩
        intro c hc
        rcases List.mem_singleton.mp hc with rfl
        exact ⟨tok, rfl⟩
      · split
        · refine ⟨by simp, ?_⟩
          intro c hc
          rcases List.mem_singleton.mp hc with rfl
          exact ⟨tok, rfl⟩
        · rename_i link heq
          refine ⟨?_, ?_⟩
          · simp only [List.length_cons]
            have hb := (ih (findSkiptoken link.toList)).1
            omega
          · intro c hc
            rcases List.mem_cons.mp hc with h | h
            · exact ⟨tok, h⟩
            · exact (ih (findSkiptoken link.toList)).2 c h

/-- Helper: the capped loop of the `recent` strategy makes at most `fuel`
list calls, each assembled by `mkCall`. -/
theorem paginateCapped_calls (provider : ListCall → PageResponse)
    (mkCall : Option String → ListCall) (maxMails : Nat) :
    ∀ (fuel accLen : Nat) (tok : Option String),
      (paginateCapped provider mkCall maxMails fuel accLen tok).2.length ≤ fuel ∧
      ∀ c ∈ (paginateCapped provider mkCall maxMails fuel accLen tok).2, ∃ t0, c = mkCall t0 := by
  intro fuel
  induction fuel with
  | zero =>
      intro accLen tok
      exact ⟨Nat.le_refl 0, fun c hc => absurd hc (List.not_mem_nil c)⟩
  | succ fuel ih =>
      intro accLen tok
      simp only [paginateCapped]
      split
      · exact ⟨by simp, fun c hc => absurd hc (List.not_mem_nil c)⟩
      · split
        · refine ⟨by simp, ?_⟩
          intro c hc
          rcases List.mem_singleton.mp hc with rfl
          exact ⟨tok, rfl⟩
        · split
          · refine ⟨by simp, ?_⟩
            intro c hc
            rcases List.mem_singleton.mp hc with rfl
            exact ⟨tok, rfl⟩
          · rename_i link heq
            refine ⟨?_, ?_⟩
            · simp only [List.length_cons]
              have hb := (ih (accLen + (provider (mkCall tok)).value.length)
                (findSkiptoken link.toList)).1
              omega
            · intro c hc
              rcases List.mem_cons.mp hc with h | h
              · exact ⟨tok, h⟩
              · exact (ih (accLen + (provider (mkCall tok)).value.length)
                  (findSkiptoken link.toList)).2 c h

/-- Helper: the delta `nextLink` chain makes at most `fuel` follow
calls. -/
theorem deltaFollow_calls (provider : String → PageResponse) :
    ∀ (fuel : Nat) (tok : Option String), (deltaFollow provider fuel tok).2 ≤ fuel := by
  intro fuel
  induction fuel with
  | zero =>
      intro tok
      exact Nat.le_refl 0
  | succ fuel ih =>
      intro tok
      cases tok with
      | none => exact Nat.zero_le _
      | some link =>
          simp only [deltaFollow]
          have hb := ih (provider link).nextLink
          omega

/-- Helper: every call of `listMessagesCall` either sends `$top = top`
(first page) or sends a skiptoken and no `$top` (continuations). -/
theorem listMessagesCall_top (folderId : Option String) (top : Nat) (t0 : Option String) :
    (listMessagesCall folderId top t0).topParam = some top ∨
      ((listMessagesCall folderId top t0).topParam = none ∧
        (listMessagesCall folderId top t0).skipToken ≠ none) := by
  cases t0 with
  | none => exact Or.inl rfl
  | some t => exact Or.inr ⟨rfl, fun h => Option.noConfusion h⟩

/-- Helper: `takeWhile` collects a block of satisfying elements up to the
first stopper. -/
theorem takeWhile_upto_stop (p : Char → Bool) (t : List Char) (x : Char) (rest : List Char)
    (h : ∀ ch ∈ t, p ch = true) (hstop : p x = false) :
    (t ++ x :: rest).takeWhile p = t := by
  induction t with
  | nil => simp [List.takeWhile_cons, hstop]
  | cons a t ih =>
      have ha : p a = true := h a (List.mem_cons_self a t)
      rw [List.cons_append, List.takeWhile_cons, if_pos ha,
        ih (fun ch hch => h ch (List.mem_cons_of_mem a hch))]

/-- Claim C8 (amended): the incremental and recent per-folder loops make
at most 20 list calls, the full loop at most 100, and the delta chain at
most 50 calls (one initial plus at most 49 follows); every list call of
the skip-token strategies either requests `$top = 50` (first page) or
passes only the skiptoken with no `$top` (continuations), and delta
calls never request a `$top`; the skiptoken passed on is the regex
extract `\$skiptoken=([^&]+)` of the response's `nextLink`. -/
theorem pagination_caps :
    (∀ (provider : ListCall → PageResponse) (folderId : String),
      (syncFolderIncrementalRun provider folderId).2.length ≤ 20 ∧
      ∀ c ∈ (syncFolderIncrementalRun provider folderId).2,
        c.topParam = some 50 ∨ (c.topParam = none ∧ c.skipToken ≠ none)) ∧
    (∀ (provider : ListCall → PageResponse) (folderId : String),
      (syncFolderRecentRun provider folderId).2.length ≤ 20 ∧
      ∀ c ∈ (syncFolderRecentRun provider folderId).2,
        c.topParam = some 50 ∨ (c.topParam = none ∧ c.skipToken ≠ none)) ∧
    (∀ (provider : ListCall → PageResponse) (folderId : String) (tok0 : Option String),
      (syncFolderFullRun provider folderId tok0).2.length ≤ 100 ∧
      ∀ c ∈ (syncFolderFullRun provider folderId tok0).2,
        c.topParam = some 50 ∨ (c.topParam = none ∧ c.skipToken ≠ none)) ∧
    (∀ (providerInit : Option String → PageResponse) (provider : String → PageResponse)
        (deltaLink : Option String),
      (syncFolderDeltaRun providerInit provider deltaLink).2 ≤ 50) ∧
    (∀ (deltaLink folderId : Option String),
      (getMessagesDeltaCall deltaLink folderId).topParam = none) ∧
    (∀ (t rest : List Char), t ≠ [] → (∀ ch ∈ t, ch ≠ '&') →
      findSkiptoken (skiptokenMarker ++ (t ++ '&' :: rest)) = some (String.mk t)) := by
  refine ⟨?_, ?_, ?_, ?_, ?_, ?_⟩
  · intro provider folderId
    have h := paginate_calls provider (listMessagesCall (some folderId) 50) 20 none
    refine ⟨h.1, ?_⟩
    intro c hc
    rcases h.2 c hc with ⟨t0, rfl⟩
    exact listMessagesCall_top (some folderId) 50 t0
  · intro provider folderId
    have h := paginateCapped_calls provider (listMessagesCall (some folderId) 50) 500 20 0 none
    refine ⟨h.1, ?_⟩
    intro c hc
    rcases h.2 c hc with ⟨t0, rfl⟩
    exact listMessagesCall_top (some folderId) 50 t0
  · intro provider folderId tok0
    have h := paginate_calls provider (listMessagesCall (some folderId) 50) 100 tok0
    refine ⟨h.1, ?_⟩
    intro c hc
    rcases h.2 c hc with ⟨t0, rfl⟩
    exact listMessagesCall_top (some folderId) 50 t0
  · intro providerInit provider deltaLink
    have h := deltaFollow_calls provider 49 (providerInit deltaLink).nextLink
    show (deltaFollow provider 49 (providerInit deltaLink).nextLink).2 + 1 ≤ 50
    omega
  · intro deltaLink folderId
    cases deltaLink with
    | none => rfl
    | some l => rfl
  · intro t rest ht hamp
    have hm : skiptokenMarker ++ (t ++ '&' :: rest) =
        '$' :: ("skiptoken=".toList ++ (t ++ '&' :: rest)) := rfl
    rw [hm]
    simp only [findSkiptoken]
    rw [if_pos]
    · have hdrop : (('$' :: ("skiptoken=".toList ++ (t ++ '&' :: rest))).drop
          skiptokenMarker.length) = t ++ '&' :: rest := by
        have : ('$' :: ("skiptoken=".toList ++ (t ++ '&' :: rest))) =
            skiptokenMarker ++ (t ++ '&' :: rest) := rfl
        rw [this, List.drop_left]
      rw [hdrop]
      rw [takeWhile_upto_stop _ t '&' rest
        (fun ch hch => by simpa using hamp ch hch) (by decide)]
      rw [if_neg (by simpa using ht)]
    · show skiptokenMarker.isPrefixOf ('$' :: ("skiptoken=".toList ++ (t ++ '&' :: rest))) = true
      have : ('$' :: ("skiptoken=".toList ++ (t ++ '&' :: rest))) =
          skiptokenMarker ++ (t ++ '&' :: rest) := rfl
      rw [this]
      exact List.isPrefixOf_iff_prefix.mpr (List.prefix_append _ _)

/-- Witness for `pagination_caps`: the worst-case provider keeps the
incremental loop within its 20-call bound, and the regex extraction of a
concrete `nextLink` tail yields the captured token `AB`. -/
theorem pagination_caps_witness :
    (syncFolderIncrementalRun fullPageProvider "f").2.length ≤ 20 ∧
    findSkiptoken (skiptokenMarker ++ (['A', 'B'] ++ '&' :: ['x'])) =
      some (String.mk ['A', 'B']) := by
  constructor
  · exact (pagination_caps.1 fullPageProvider "f").1
  · exact pagination_caps.2.2.2.2.2 ['A', 'B'] ['x'] (by decide) (by decide)

/-- Helper: on a provider that always returns a full page with a
`nextLink`, the skip-token loop spends its entire fuel. -/
theorem fullPageProvider_loop :
    ∀ (fuel : Nat) (tok : Option String),
      (paginate fullPageProvider (listMessagesCall (some "folder") 50) fuel tok).2.length =
        fuel := by
  intro fuel
  induction fuel with
  | zero =>
      intro tok
      rfl
  | succ fuel ih =>
      intro tok
      simp [paginate, fullPageProvider, ih]

/-- Counterexample to claim C8 as stated: against a provider that always
has another page, the full-sync per-folder loop performs 100 list calls
— its `max_batches` is 100, not 50. -/
theorem full_sync_exceeds_fifty_batches :
    (syncFolderFullRun fullPageProvider "folder" none).2.length = 100 ∧
    ¬ (syncFolderFullRun fullPageProvider "folder" none).2.length ≤ 50 := by
  have h := fullPageProvider_loop 100 none
  exact ⟨h, by rw [show (syncFolderFullRun fullPageProvider "folder" none).2.length = 100 from h]; omega⟩

/-- Claim C3 (amended): in the mail-sync path normalized message records
are not pushed to the write-queue — `save_mails_to_db` reaches a direct
store write through a variable `db` bound nowhere in its scope, raising
`NameError` and saving nothing while pushing nothing (an empty batch
returns 0 without writing); per-group sync state is updated exactly when
the strategy result reports success, independently of any queue push;
only the batch-download path pushes serialized rows to the write-queue,
one `mail_body` payload per successful download. -/
theorem sync_path_never_pushes :
    (∀ mails : List Mail, mails ≠ [] →
      saveMailsToDb mails = (Except.error (PyExc.nameError "db"), [])) ∧
    saveMailsToDb [] = (Except.ok 0, []) ∧
    (∀ r : StrategyResult, syncStateUpdated r = r.success) ∧
    (∀ results : List DownloadResult, ∀ item ∈ batchDownloadPushes results,
      ∃ d : Row, item = RawItem.good "mail_body" d) := by
  refine ⟨?_, rfl, fun r => rfl, ?_⟩
  · intro mails h
    unfold saveMailsToDb
    rw [if_neg ?_]
    intro hemp
    exact h (List.isEmpty_iff.mp hemp)
  · intro results item hitem
    rcases List.mem_map.mp hitem with ⟨r, _, rfl⟩
    exact ⟨_, rfl⟩

/-- Witness for `sync_path_never_pushes`: a one-mail batch raises
`NameError` and pushes nothing, and the queue payload of one concrete
download is a `mail_body` row. -/
theorem sync_path_never_pushes_witness :
    saveMailsToDb [0] = (Except.error (PyExc.nameError "db"), []) ∧
    ∃ d : Row, downloadPayload downloadResultEx = RawItem.good "mail_body" d := by
  constructor
  · exact sync_path_never_pushes.1 [0] (by decide)
  · exact sync_path_never_pushes.2.2.2 [downloadResultEx] _ (List.mem_singleton.mpr rfl)

/-- Counterexample to claim C3 as stated: syncing a batch of one message
serializes nothing to the write-queue — the push list is empty and the
save raises `NameError` on the unbound `db` of its direct store write. -/
theorem sync_batch_pushes_nothing :
    (saveMailsToDb [7]).2 = [] ∧
    (saveMailsToDb [7]).1 = Except.error (PyExc.nameError "db") := by
  exact ⟨rfl, rfl⟩

/-- Helper: one unfolding of `getAccessToken` on a present row. -/
theorem getAccessToken_some (now : Int) (r : TokenRow) (provider : String → RefreshResult) :
    getAccessToken now (some r) provider =
      (if r.at_expires_at ≤ now + REFRESH_BUFFER then
        match provider r.refresh_token with
        | RefreshResult.ok access newRefresh expiresIn =>
            (some { access_token := access,
                    refresh_token := newRefresh.getD r.refresh_token,
                    at_expires_at := now + expiresIn }, TokenOutcome.token access)
        | RefreshResult.invalidGrant => (none, TokenOutcome.reloginRequired)
        | RefreshResult.network => (some r, TokenOutcome.transient)
      else (some r, TokenOutcome.token r.access_token)) :=
  rfl

/-- Claim C6 (spec-modelled: the database-backed client is not under
src/): `GetAccessToken` reads the group's token row — no row yields
`noRow`; a token with `now + 300 < at_expires_at` is returned unchanged;
a stale one triggers the provider refresh with the stored refresh token
and persists `(access, refresh or prior refresh, now + expires_in)`, and
when `expires_in > 300` the persisted expiry satisfies
`at_expires_at > now + 300`; `invalid_grant` clears the row and surfaces
relogin, a network error keeps the row and surfaces a transient
failure. -/
theorem get_access_token_refresh (now : Int) (r : TokenRow)
    (provider : String → RefreshResult) :
    getAccessToken now none provider = (none, TokenOutcome.noRow) ∧
    (now + REFRESH_BUFFER < r.at_expires_at →
      getAccessToken now (some r) provider = (some r, TokenOutcome.token r.access_token)) ∧
    (r.at_expires_at ≤ now + REFRESH_BUFFER →
      (∀ (access : String) (newRefresh : Option String) (expiresIn : Int),
        provider r.refresh_token = RefreshResult.ok access newRefresh expiresIn →
          getAccessToken now (some r) provider =
            (some { access_token := access,
                    refresh_token := newRefresh.getD r.refresh_token,
                    at_expires_at := now + expiresIn }, TokenOutcome.token access) ∧
          (REFRESH_BUFFER < expiresIn →
            ∃ r2 : TokenRow, (getAccessToken now (some r) provider).1 = some r2 ∧
              now + REFRESH_BUFFER < r2.at_expires_at ∧ r2.access_token = access)) ∧
      (provider r.refresh_token = RefreshResult.invalidGrant →
        getAccessToken now (some r) provider = (none, TokenOutcome.reloginRequired)) ∧
      (provider r.refresh_token = RefreshResult.network →
        getAccessToken now (some r) provider = (some r, TokenOutcome.transient))) := by
  refine ⟨rfl, ?_, ?_⟩
  · intro h
    rw [getAccessToken_some, if_neg (not_le.mpr h)]
  · intro hstale
    have hout : ∀ (access : String) (newRefresh : Option String) (expiresIn : Int),
        provider r.refresh_token = RefreshResult.ok access newRefresh expiresIn →
          getAccessToken now (some r) provider =
            (some { access_token := access,
                    refresh_token := newRefresh.getD r.refresh_token,
                    at_expires_at := now + expiresIn }, TokenOutcome.token access) := by
      intro access newRefresh expiresIn hprov
      rw [getAccessToken_some, if_pos hstale, hprov]
    refine ⟨?_, ?_, ?_⟩
    · intro access newRefresh expiresIn hprov
      refine ⟨hout access newRefresh expiresIn hprov, ?_⟩
      intro hbuf
      refine ⟨{ access_token := access,
                refresh_token := newRefresh.getD r.refresh_token,
                at_expires_at := now + expiresIn }, ?_, ?_, rfl⟩
      · rw [hout access newRefresh expiresIn hprov]
      · show now + REFRESH_BUFFER < now + expiresIn
        omega
    · intro hprov
      rw [getAccessToken_some, if_pos hstale, hprov]
    · intro hprov
      rw [getAccessToken_some, if_pos hstale, hprov]

/-- Witness for `get_access_token_refresh`: at `now = 1000` a row
expiring at 1200 is stale (1200 ≤ 1300); the refresh persists
`("new", "rt", 4600)`, returning the new access token, and the new
expiry exceeds `now + 300 = 1300`. -/
theorem get_access_token_refresh_witness :
    getAccessToken 1000 (some tokenRowEx) refreshOkProvider =
      (some { access_token := "new", refresh_token := "rt", at_expires_at := 4600 },
        TokenOutcome.token "new") ∧
    ∃ r2 : TokenRow, (getAccessToken 1000 (some tokenRowEx) refreshOkProvider).1 = some r2 ∧
      1000 + REFRESH_BUFFER < r2.at_expires_at ∧ r2.access_token = "new" := by
  have h := (get_access_token_refresh 1000 tokenRowEx refreshOkProvider).2.2
    (by norm_num [tokenRowEx, REFRESH_BUFFER])
  have hok := h.1 "new" none 3600 rfl
  constructor
  · exact hok.1
  · exact hok.2 (by norm_num [REFRESH_BUFFER])

end ServerTest
